import Mathlib

/-!
Verification of the kabadi boundary-violation tracker.

Coordinates and times are embedded as rationals (the Python sources compute
with machine floats on small pixel-scale values; `ℚ` models the intended real
arithmetic exactly).  Python `dict`s are embedded as insertion-ordered
association lists, Python `math.sqrt` comparisons between distances are
modelled by the equivalent comparisons of squared distances, and `int()`
is truncation toward zero.
-/

namespace Kabadi

/-- Python `int()` applied to a rational: truncation toward zero. -/
def pyInt (q : ℚ) : ℤ := if 0 ≤ q then ⌊q⌋ else ⌈q⌉

/-! ### Association-list operations mirroring Python `dict` semantics
(insertion order preserved, assignment to an existing key keeps its slot,
`del` removes the key). -/

/-- First value bound to `k` (Python `d[k]` / `d.get(k)`). -/
def lookupA {α : Type} (l : List (ℕ × α)) (k : ℕ) : Option α :=
  match l.find? (fun kv => kv.1 == k) with
  | some kv => some kv.2
  | none => none

/-- Replace the value at key `k` in place (Python `d[k].update(...)` /
`d[k] = v` for an existing key). -/
def updateA {α : Type} (l : List (ℕ × α)) (k : ℕ) (f : α → α) : List (ℕ × α) :=
  l.map fun kv => if kv.1 == k then (kv.1, f kv.2) else kv

/-- Remove every binding of key `k` (Python `del d[k]`). -/
def eraseA {α : Type} (l : List (ℕ × α)) (k : ℕ) : List (ℕ × α) :=
  l.filter fun kv => kv.1 ≠ k

/-- Python `d[k] = v`: overwrite in place when present, append when fresh. -/
def setA {α : Type} (l : List (ℕ × α)) (k : ℕ) (v : α) : List (ℕ × α) :=
  if (lookupA l k).isSome then updateA l k (fun _ => v) else l ++ [(k, v)]

/-- Keys of an association list, in order. -/
def keysA {α : Type} (l : List (ℕ × α)) : List ℕ := l.map Prod.fst

/-! ### Boundary model

Three violation tests exist in the sources:
`ViolationDetector.check_boundary_crossing` (src/violation_detector.py),
`BoundaryDetector.is_point_below_boundary` (src/modules/boundary_detector.py)
and `EnhancedSkeletonTracker.point_crosses_boundary`
(src/enhanced_skeleton_tracker.py). -/

/-- `config.BOUNDARY_THRESHOLD` from src/config_manager.py. -/
def BOUNDARY_THRESHOLD : ℚ := 10

/-- `config.COOLDOWN_SECONDS` from src/config_manager.py. -/
def COOLDOWN_SECONDS : ℚ := 2

/-- The consecutive segments of a polyline
(`for i in range(len(points) - 1)` pairing `points[i], points[i+1]`). -/
def segments (points : List (ℚ × ℚ)) : List ((ℚ × ℚ) × (ℚ × ℚ)) :=
  points.zip points.tail

/-- One loop iteration of `ViolationDetector.check_boundary_crossing`:
orient the segment left-to-right, skip vertical segments (`continue`),
otherwise report whether `fy` is more than `thr` below the segment's line
at `fx` (when `fx` is inside the segment's x-span). -/
def segCrosses (p1 p2 : ℚ × ℚ) (fx fy thr : ℚ) : Bool :=
  let q1 : ℚ × ℚ := if p1.1 < p2.1 then p1 else p2
  let q2 : ℚ × ℚ := if p1.1 < p2.1 then p2 else p1
  if q1.1 ≤ fx ∧ fx ≤ q2.1 then
    if q2.1 - q1.1 = 0 then false
    else
      let m := (q2.2 - q1.2) / (q2.1 - q1.1)
      let c := q1.2 - m * q1.1
      decide (fy > m * fx + c + thr)
  else false

/-- `ViolationDetector.check_boundary_crossing` (src/violation_detector.py,
lines 15-39): returns `True` as soon as some segment flags a violation,
`False` after the loop otherwise. -/
def check_boundary_crossing (points : List (ℚ × ℚ)) (fx fy : ℚ) : Bool :=
  (segments points).any fun s => segCrosses s.1 s.2 fx fy BOUNDARY_THRESHOLD

/-- Key order used by `sorted(self.boundary_points, key=lambda p: p[0])`. -/
def leX (p q : ℚ × ℚ) : Prop := p.1 ≤ q.1

instance : DecidableRel leX := fun p q => inferInstanceAs (Decidable (p.1 ≤ q.1))

instance : IsTotal (ℚ × ℚ) leX := ⟨fun p q => le_total p.1 q.1⟩

instance : IsTrans (ℚ × ℚ) leX := ⟨fun _ _ _ h h' => le_trans h h'⟩

/-- Python's `sorted(points, key=lambda p: p[0])`: a stable sort by
x-coordinate.  `List.insertionSort` with `leX` is stable, matching CPython's
stable sort semantics on equal keys. -/
def pySortByX (points : List (ℚ × ℚ)) : List (ℚ × ℚ) :=
  List.insertionSort leX points

/-- Strict x-order on polyline points (an x-monotone polyline is a
`Chain'` of `ltX`). -/
def ltX (p q : ℚ × ℚ) : Prop := p.1 < q.1

instance : DecidableRel ltX := fun p q => inferInstanceAs (Decidable (p.1 < q.1))

instance : IsTrans (ℚ × ℚ) ltX := ⟨fun _ _ _ h h' => lt_trans h h'⟩

/-- Interpolation loop of `BoundaryDetector.is_point_below_boundary`
(lines 60-72): the first consecutive pair with `x1 <= x <= x2` determines
`boundary_y` (interpolated, or `y1` for a vertical pair), then `break`. -/
def interpScan : List ((ℚ × ℚ) × (ℚ × ℚ)) → ℚ → Option ℚ
  | [], _ => none
  | (p, q) :: rest, x =>
    if p.1 ≤ x ∧ x ≤ q.1 then
      some (if q.1 - p.1 ≠ 0 then p.2 + (q.2 - p.2) * (x - p.1) / (q.1 - p.1) else p.2)
    else interpScan rest x

/-- `BoundaryDetector.is_point_below_boundary` (src/modules/boundary_detector.py,
lines 30-85): sort the points by x, extrapolate with the first/last sorted
point's y outside the x-range, interpolate inside, and flag a violation when
`y > boundary_y` (note: no threshold is added here). -/
def is_point_below_boundary (boundary_points : List (ℚ × ℚ)) (point : ℚ × ℚ) : Bool :=
  if boundary_points.length < 2 then false
  else
    let x := point.1
    let y := point.2
    let sorted_points := pySortByX boundary_points
    let fst := sorted_points.headI
    let lst := sorted_points.getLastD (0, 0)
    let boundary_y : Option ℚ :=
      if x < fst.1 then some fst.2
      else if x > lst.1 then some lst.2
      else interpScan (segments sorted_points) x
    match boundary_y with
    | none => false
    | some b_y => decide (y > b_y)

/-- One loop iteration of `EnhancedSkeletonTracker.point_crosses_boundary`:
vertical segments flag any `y` in their y-range with `x > x1`; otherwise
interpolate and compare against a literal 10-pixel threshold. -/
def segCrossesEST (p1 p2 : ℚ × ℚ) (x y : ℚ) : Bool :=
  let x1 := p1.1
  let y1 := p1.2
  let x2 := p2.1
  let y2 := p2.2
  if x1 = x2 then
    decide (min y1 y2 ≤ y ∧ y ≤ max y1 y2 ∧ x > x1)
  else
    if min x1 x2 ≤ x ∧ x ≤ max x1 x2 then
      let m := (y2 - y1) / (x2 - x1)
      decide (y > y1 + m * (x - x1) + 10)
    else false

/-- `EnhancedSkeletonTracker.point_crosses_boundary`
(src/enhanced_skeleton_tracker.py, lines 178-203). -/
def point_crosses_boundary (pts : List (ℚ × ℚ)) (x y : ℚ) : Bool :=
  if pts.length < 2 then false
  else (segments pts).any fun s => segCrossesEST s.1 s.2 x y

/-- Reference definition of "the linearly interpolated boundary y at x" for an
x-sorted polyline (the hand computation the spec's testable property refers
to): walk the segments and interpolate on the first one whose right endpoint
is at or past `x`. -/
def interpY : List (ℚ × ℚ) → ℚ → ℚ
  | p :: q :: rest, x =>
    if x ≤ q.1 then p.2 + (q.2 - p.2) * (x - p.1) / (q.1 - p.1)
    else interpY (q :: rest) x
  | _, _ => 0

/-! ### Position filter

`KalmanTracker` (src/modules/kalman_tracker.py) wraps a `cv2.KalmanFilter(4, 2)`
with the repo's fixed constant-velocity transition matrix, measurement matrix
and noise covariances.  The OpenCV `predict`/`correct` steps are inlined here
(OpenCV's `predict` copies the predicted state/covariance into the posterior
slots so that a missed `correct` is harmless). -/

abbrev Mat4 := Matrix (Fin 4) (Fin 4) ℚ

abbrev Vec4 := Matrix (Fin 4) (Fin 1) ℚ

/-- `kalman.transitionMatrix` (constant-velocity model). -/
def transitionMatrix : Mat4 := !![1,0,1,0; 0,1,0,1; 0,0,1,0; 0,0,0,1]

/-- `kalman.measurementMatrix` (positions are measured, velocities are not). -/
def measurementMatrix : Matrix (Fin 2) (Fin 4) ℚ := !![1,0,0,0; 0,1,0,0]

/-- `kalman.processNoiseCov = 0.03 * I`. -/
def processNoiseCov : Mat4 := (3/100 : ℚ) • 1

/-- `kalman.measurementNoiseCov = 0.1 * I`. -/
def measurementNoiseCov : Matrix (Fin 2) (Fin 2) ℚ := (1/10 : ℚ) • 1

structure KalmanTracker where
  statePre : Vec4
  statePost : Vec4
  errorCovPre : Mat4
  errorCovPost : Mat4
  last_prediction : ℤ × ℤ

/-- `KalmanTracker.__init__(initial_position)`: state `[x, y, 0, 0]`,
posterior covariance `I` (`errorCovPre` is left at cv2's zero default). -/
def KalmanTracker.init (pos : ℤ × ℤ) : KalmanTracker :=
  let s : Vec4 := !![(pos.1 : ℚ); (pos.2 : ℚ); 0; 0]
  { statePre := s, statePost := s, errorCovPre := 0, errorCovPost := 1,
    last_prediction := pos }

/-- `KalmanTracker.predict()`: advance by the transition model and return the
predicted `(int(x), int(y))` position. -/
def KalmanTracker.predict (k : KalmanTracker) : KalmanTracker × (ℤ × ℤ) :=
  let pre := transitionMatrix * k.statePost
  let covPre := transitionMatrix * k.errorCovPost * transitionMatrix.transpose +
    processNoiseCov
  let p := (pyInt (pre 0 0), pyInt (pre 1 0))
  ({ statePre := pre, statePost := pre, errorCovPre := covPre, errorCovPost := covPre,
     last_prediction := p }, p)

/-- Explicit inverse of a 2×2 matrix (the innovation covariance is 2×2). -/
def inv2 (S : Matrix (Fin 2) (Fin 2) ℚ) : Matrix (Fin 2) (Fin 2) ℚ :=
  (S 0 0 * S 1 1 - S 0 1 * S 1 0)⁻¹ • !![S 1 1, -(S 0 1); -(S 1 0), S 0 0]

/-- `KalmanTracker.update(measurement)`: the cv2 `correct` step with the
repo's fixed matrices (Kalman gain from the predicted covariance). -/
def KalmanTracker.update (k : KalmanTracker) (meas : ℤ × ℤ) : KalmanTracker :=
  let z : Matrix (Fin 2) (Fin 1) ℚ := !![(meas.1 : ℚ); (meas.2 : ℚ)]
  let S := measurementMatrix * k.errorCovPre * measurementMatrix.transpose +
    measurementNoiseCov
  let K := k.errorCovPre * measurementMatrix.transpose * inv2 S
  { k with
    statePost := k.statePre + K * (z - measurementMatrix * k.statePre),
    errorCovPost := (1 - K * measurementMatrix) * k.errorCovPre }

/-! ### Identity resolver: `PlayerTracker` (src/player_tracker.py)

`stable_players` and `kalman_filters` are Python dicts keyed by stable ID.
`math.sqrt(dx**2 + dy**2) < 150` and the running `distance < min_distance`
comparison are modelled by the equivalent comparisons of squared distances
(squaring is strictly monotone on nonnegative reals). -/

/-- One entry of `self.stable_players`. -/
structure PlayerRec where
  position : ℤ × ℤ
  last_seen : ℕ
  yolo_id : ℕ
  bbox : ℤ × ℤ × ℤ × ℤ

/-- One entry of `self.violation_records` (the buffered evidence frames are
external cv2 data; the record is identified by its start frame). -/
structure ViolationRecord where
  start_frame : ℕ

structure TrackerState where
  stable_players : List (ℕ × PlayerRec)
  kalman_filters : List (ℕ × KalmanTracker)
  next_stable_id : ℕ
  frame_count : ℕ
  violation_records : List (ℕ × ViolationRecord)
  active_violations : List ℕ

/-- `PlayerTracker.__init__` tracking fields. -/
def TrackerState.init : TrackerState :=
  { stable_players := [], kalman_filters := [], next_stable_id := 1,
    frame_count := 0, violation_records := [], active_violations := [] }

/-- Squared Euclidean distance (`math.sqrt` dropped, see above). -/
def dist2 (a b : ℤ × ℤ) : ℤ := (a.1 - b.1) ^ 2 + (a.2 - b.2) ^ 2

/-- `self.max_distance = 150`, squared. -/
def MAX_DISTANCE_SQ : ℤ := 150 ^ 2

/-- `self.max_frames_missing = 60`. -/
def MAX_FRAMES_MISSING : ℤ := 60

/-- The bbox-overlap test of `get_stable_id`:
`overlap_area > 0.3 * min(current_area, existing_area)`, cleared of the
rational factor (`10 * overlap > 3 * min`). -/
def overlaps (b1 b2 : ℤ × ℤ × ℤ × ℤ) : Bool :=
  let x1 := b1.1
  let y1 := b1.2.1
  let x2 := b1.2.2.1
  let y2 := b1.2.2.2
  let px1 := b2.1
  let py1 := b2.2.1
  let px2 := b2.2.2.1
  let py2 := b2.2.2.2
  let overlap_x := max 0 (min x2 px2 - max x1 px1)
  let overlap_y := max 0 (min y2 py2 - max y1 py1)
  let overlap_area := overlap_x * overlap_y
  let current_area := (x2 - x1) * (y2 - y1)
  let existing_area := (px2 - px1) * (py2 - py1)
  decide (10 * overlap_area > 3 * min current_area existing_area)

/-- The closest-predicted-position scan of `get_stable_id`
(`for stable_id in predicted_positions: if distance < max_distance and
distance < min_distance: ...`), carrying the current best `(id, distance²)`. -/
def closestScan (center : ℤ × ℤ) (predicted : List (ℕ × (ℤ × ℤ))) :
    Option (ℕ × ℤ) :=
  predicted.foldl
    (fun acc kv =>
      let d := dist2 center kv.2
      let keep : Bool := decide (d < MAX_DISTANCE_SQ) &&
        (match acc with
         | none => true
         | some m => decide (d < m.2))
      if keep then some (kv.1, d) else acc)
    none

/-- `PlayerTracker.get_stable_id(center_pos, bbox, yolo_id)`
(src/player_tracker.py, lines 110-202).  All filters are advanced by
`predict()` first; then, in order: transient-YOLO-ID match, closest
predicted position under the distance threshold, bbox overlap, and
finally creation of a fresh stable ID. -/
def PlayerTracker.get_stable_id (st : TrackerState) (center_pos : ℤ × ℤ)
    (bbox : ℤ × ℤ × ℤ × ℤ) (yolo_id : ℕ) : ℕ × TrackerState :=
  let stepped := st.kalman_filters.map fun kv => (kv.1, kv.2.predict)
  let filters : List (ℕ × KalmanTracker) := stepped.map fun kv => (kv.1, kv.2.1)
  let predicted : List (ℕ × (ℤ × ℤ)) := stepped.map fun kv => (kv.1, kv.2.2)
  match st.stable_players.find? (fun sp => sp.2.yolo_id == yolo_id) with
  | some sp =>
    (sp.1, { st with
      kalman_filters := updateA filters sp.1 (fun k => k.update center_pos),
      stable_players := updateA st.stable_players sp.1 fun pd =>
        { pd with position := center_pos, last_seen := st.frame_count, bbox := bbox } })
  | none =>
    match closestScan center_pos predicted with
    | some m =>
      (m.1, { st with
        kalman_filters := updateA filters m.1 (fun k => k.update center_pos),
        stable_players := updateA st.stable_players m.1 fun pd =>
          { pd with position := center_pos, last_seen := st.frame_count,
                    yolo_id := yolo_id, bbox := bbox } })
    | none =>
      match st.stable_players.find? (fun sp => overlaps bbox sp.2.bbox) with
      | some sp =>
        (sp.1, { st with
          kalman_filters := updateA filters sp.1 (fun k => k.update center_pos),
          stable_players := updateA st.stable_players sp.1 fun pd =>
            { pd with position := center_pos, last_seen := st.frame_count,
                      yolo_id := yolo_id, bbox := bbox } })
      | none =>
        let new_stable_id := st.next_stable_id
        (new_stable_id, { st with
          stable_players := st.stable_players ++
            [(new_stable_id, ⟨center_pos, st.frame_count, yolo_id, bbox⟩)],
          kalman_filters := filters ++ [(new_stable_id, KalmanTracker.init center_pos)],
          next_stable_id := new_stable_id + 1 })

/-- The body of the removal loop of `cleanup_old_players`, for one stale
stable ID: flush any open violation record (`save_violation_video` writes the
clip and deletes the record; the flushed `(player_id, start_frame)` episode is
collected), drop the ID from `active_violations` and delete the player and
its Kalman filter. -/
def cleanup_remove_one (acc : TrackerState × List (ℕ × ℕ)) (sid : ℕ) :
    TrackerState × List (ℕ × ℕ) :=
  let st1 := acc.1
  let flushed := acc.2
  let step1 : TrackerState × List (ℕ × ℕ) :=
    match lookupA st1.violation_records sid with
    | some vr =>
      ({ st1 with violation_records := eraseA st1.violation_records sid },
       flushed ++ [(sid, vr.start_frame)])
    | none => (st1, flushed)
  ({ step1.1 with
     active_violations := step1.1.active_violations.erase sid,
     stable_players := eraseA step1.1.stable_players sid,
     kalman_filters := eraseA step1.1.kalman_filters sid }, step1.2)

/-- `PlayerTracker.cleanup_old_players` (src/player_tracker.py, lines 204-223):
collect every stable ID unseen for more than `max_frames_missing` frames, then
remove each one, flushing its open violation episode first. -/
def PlayerTracker.cleanup_old_players (st : TrackerState) :
    TrackerState × List (ℕ × ℕ) :=
  let to_remove := (st.stable_players.filter fun sp =>
    decide ((st.frame_count : ℤ) - sp.2.last_seen > MAX_FRAMES_MISSING)).map Prod.fst
  to_remove.foldl cleanup_remove_one (st, [])

/-! ### Identity resolver: `PlayerIDManager` (src/modules/player_id_manager.py)

The simplified manager variant: same matching cascade but the position step
compares against each player's last stored `position` (it keeps no Kalman
filters). -/

structure IDMState where
  stable_players : List (ℕ × PlayerRec)
  next_stable_id : ℕ

/-- `PlayerIDManager.__init__`. -/
def IDMState.init : IDMState := { stable_players := [], next_stable_id := 1 }

/-- `PlayerIDManager.get_stable_id(center_pos, bbox, yolo_id, frame_count)`
(src/modules/player_id_manager.py, lines 10-75). -/
def PlayerIDManager.get_stable_id (st : IDMState) (center_pos : ℤ × ℤ)
    (bbox : ℤ × ℤ × ℤ × ℤ) (yolo_id : ℕ) (frame_count : ℕ) : ℕ × IDMState :=
  match st.stable_players.find? (fun sp => sp.2.yolo_id == yolo_id) with
  | some sp =>
    (sp.1, { st with stable_players := updateA st.stable_players sp.1 fun pd =>
      { pd with position := center_pos, last_seen := frame_count, bbox := bbox } })
  | none =>
    match closestScan center_pos
        (st.stable_players.map fun sp => (sp.1, sp.2.position)) with
    | some m =>
      (m.1, { st with stable_players := updateA st.stable_players m.1 fun pd =>
        { pd with position := center_pos, last_seen := frame_count,
                  yolo_id := yolo_id, bbox := bbox } })
    | none =>
      match st.stable_players.find? (fun sp => overlaps bbox sp.2.bbox) with
      | some sp =>
        (sp.1, { st with stable_players := updateA st.stable_players sp.1 fun pd =>
          { pd with position := center_pos, last_seen := frame_count,
                    yolo_id := yolo_id, bbox := bbox } })
      | none =>
        let new_stable_id := st.next_stable_id
        (new_stable_id, { st with
          stable_players := st.stable_players ++
            [(new_stable_id, ⟨center_pos, frame_count, yolo_id, bbox⟩)],
          next_stable_id := new_stable_id + 1 })

/-- `PlayerIDManager.cleanup_old_players(frame_count)`
(src/modules/player_id_manager.py, lines 77-87): delete and return every
stable ID unseen for more than `max_frames_missing` frames. -/
def PlayerIDManager.cleanup_old_players (st : IDMState) (frame_count : ℕ) :
    IDMState × List ℕ :=
  let to_remove := (st.stable_players.filter fun sp =>
    decide ((frame_count : ℤ) - sp.2.last_seen > MAX_FRAMES_MISSING)).map Prod.fst
  ({ st with stable_players := to_remove.foldl eraseA st.stable_players }, to_remove)

/-- The `predicted_positions` dict computed at the top of
`PlayerTracker.get_stable_id`: every identity's Kalman `predict()` output. -/
def predictedOf (st : TrackerState) : List (ℕ × (ℤ × ℤ)) :=
  (st.kalman_filters.map fun kv => (kv.1, kv.2.predict)).map fun kv => (kv.1, kv.2.2)

/-- The allocation invariant of the identity table: every stable ID in the
table is below the next ID to be handed out. -/
def IDMInv (st : IDMState) : Prop :=
  ∀ k ∈ keysA st.stable_players, k < st.next_stable_id

/-- One external call to the manager, for whole-trace statements. -/
inductive IDMOp where
  | resolve (center : ℤ × ℤ) (bbox : ℤ × ℤ × ℤ × ℤ) (yolo : ℕ) (frame : ℕ)
  | cleanup (frame : ℕ)

/-- Run a sequence of manager calls, collecting the stable IDs of the
identities freshly created along the way (a `resolve` created an identity
exactly when it advanced `next_stable_id`). -/
def runIDM (st : IDMState) : List IDMOp → IDMState × List ℕ
  | [] => (st, [])
  | IDMOp.resolve c b y f :: ops =>
    let r := PlayerIDManager.get_stable_id st c b y f
    let rest := runIDM r.2 ops
    (rest.1, (if r.2.next_stable_id ≠ st.next_stable_id then [r.1] else []) ++ rest.2)
  | IDMOp.cleanup f :: ops =>
    runIDM (PlayerIDManager.cleanup_old_players st f).1 ops

/-! ### Violation state machine
(`EnhancedSkeletonTracker.update_player_tracking`,
src/enhanced_skeleton_tracker.py, lines 394-454, per tracked player). -/

/-- Per-player violation state, `EnhancedSkeletonTracker.PlayerData.__init__`
(lines 91-102): `violations = 0`, `is_out = False`, `last_violation_time = 0`,
`is_violating = False`, `violation_start_time = None`. -/
structure PlayerData where
  violations : ℕ
  is_out : Bool
  last_violation_time : ℚ
  is_violating : Bool
  violation_start_time : Option ℚ

def PlayerData.init : PlayerData :=
  { violations := 0, is_out := false, last_violation_time := 0,
    is_violating := false, violation_start_time := none }

/-- Observable side effects of one per-player tracking step: a violation clip
was started (`start_violation_recording`), the violation counter was
incremented (with a screenshot persisted), a clip was stopped. -/
structure StepEvents where
  episode_started : Bool
  counted : Bool
  episode_stopped : Bool

def StepEvents.none : StepEvents :=
  { episode_started := false, counted := false, episode_stopped := false }

/-- One frame of `update_player_tracking` for one player whose pose is
detected: eliminated players are skipped (`continue`); a violating frame
opens an episode on the rising edge and counts (+ screenshot) when more than
2.0 seconds of wall-clock time passed since the last counted violation;
reaching 3 violations eliminates the player and stops the clip; a
non-violating frame closes any open episode.  `t` is `time.time()`. -/
def update_player_tracking_step (p : PlayerData) (t : ℚ) (is_violation : Bool) :
    PlayerData × StepEvents :=
  if p.is_out then (p, StepEvents.none)
  else if is_violation then
    let started := !p.is_violating
    let p1 := if p.is_violating then p else
      { p with is_violating := true, violation_start_time := some t }
    if t - p1.last_violation_time > 2 then
      let p2 := { p1 with violations := p1.violations + 1, last_violation_time := t }
      if p2.violations ≥ 3 then
        ({ p2 with is_out := true },
         { episode_started := started, counted := true, episode_stopped := true })
      else
        (p2, { episode_started := started, counted := true, episode_stopped := false })
    else
      (p1, { episode_started := started, counted := false, episode_stopped := false })
  else
    if p.is_violating then
      ({ p with is_violating := false },
       { episode_started := false, counted := false, episode_stopped := true })
    else (p, StepEvents.none)

/-- Run the per-player state machine over a list of frames
`(wall-clock time, ground point reports violation)`, collecting the final
state, the times of the counted violations, and the number of episodes
opened. -/
def runPlayer (p : PlayerData) : List (ℚ × Bool) → PlayerData × List ℚ × ℕ
  | [] => (p, [], 0)
  | f :: fs =>
    let r := update_player_tracking_step p f.1 f.2
    let rest := runPlayer r.1 fs
    (rest.1,
     (if r.2.counted then [f.1] else []) ++ rest.2.1,
     (if r.2.episode_started then 1 else 0) + rest.2.2)

/-- `ViolationDetector.should_save_evidence(player_id)`
(src/violation_detector.py, lines 84-92): the per-player debounce of the
detector variant; `last_violation_time` is the tracker's dict, absent
players default to 0. -/
def should_save_evidence (last_violation_time : List (ℕ × ℚ)) (player_id : ℕ)
    (t : ℚ) : Bool × List (ℕ × ℚ) :=
  let last := (lookupA last_violation_time player_id).getD 0
  if t - last > COOLDOWN_SECONDS then
    (true, setA last_violation_time player_id t)
  else (false, last_violation_time)

/-! ### Ground-contact extraction -/

/-- One pose landmark `(x, y, visibility)` (normalized image coordinates). -/
structure Landmark where
  x : ℚ
  y : ℚ
  visibility : ℚ

/-- The landmark-name table of
`EnhancedSkeletonTracker.get_skeleton_landmarks` (lines 104-137). -/
def landmarkNames : List (String × ℕ) :=
  [("nose", 0), ("left_eye_inner", 1), ("left_eye", 2), ("left_eye_outer", 3),
   ("right_eye_inner", 4), ("right_eye", 5), ("right_eye_outer", 6),
   ("left_ear", 7), ("right_ear", 8), ("mouth_left", 9), ("mouth_right", 10),
   ("left_shoulder", 11), ("right_shoulder", 12),
   ("left_elbow", 13), ("right_elbow", 14),
   ("left_wrist", 15), ("right_wrist", 16),
   ("left_pinky", 17), ("right_pinky", 18),
   ("left_index", 19), ("right_index", 20),
   ("left_thumb", 21), ("right_thumb", 22),
   ("left_hip", 23), ("right_hip", 24),
   ("left_knee", 25), ("right_knee", 26),
   ("left_ankle", 27), ("right_ankle", 28),
   ("left_heel", 29), ("right_heel", 30),
   ("left_foot_index", 31), ("right_foot_index", 32)]

/-- `EnhancedSkeletonTracker.get_skeleton_landmarks(pose_landmarks)`:
keep every named landmark present in the pose with visibility above 0.3
(dict insertion order = table order). -/
def get_skeleton_landmarks (pose : List Landmark) : List (String × Landmark) :=
  landmarkNames.filterMap fun ni =>
    match pose.get? ni.2 with
    | some lm => if lm.visibility > 3/10 then some (ni.1, lm) else none
    | none => none

/-- Priority order of `EnhancedSkeletonTracker.get_ground_contact_points`
(lines 143-149): heels, then foot indices (toes), then ankles, then knees. -/
def footLandmarkNames : List String :=
  ["left_heel", "right_heel", "left_foot_index", "right_foot_index",
   "left_ankle", "right_ankle", "left_knee", "right_knee"]

/-- One extracted ground-contact candidate `(x, y, landmark, confidence)`. -/
structure GroundPoint where
  x : ℤ
  y : ℤ
  name : String
  confidence : ℚ

/-- `EnhancedSkeletonTracker.get_ground_contact_points(skeleton, w, h)`
(src/enhanced_skeleton_tracker.py, lines 139-158): walk `foot_landmarks` in
priority order and emit every one present in the skeleton. -/
def EnhancedSkeletonTracker.get_ground_contact_points
    (skeleton : List (String × Landmark)) (w h : ℚ) : List GroundPoint :=
  footLandmarkNames.filterMap fun nm =>
    match skeleton.find? (fun kv => kv.1 == nm) with
    | some kv =>
      some { x := pyInt (kv.2.x * w), y := pyInt (kv.2.y * h), name := nm,
             confidence := kv.2.visibility }
    | none => none

/-- Landmark indices of `SkeletonTracker.get_ground_contact_points`
(src/foot_detector.py, line 139): heels, toes, ankles — no knees. -/
def fdFootIndices : List ℕ := [29, 30, 31, 32, 27, 28]

/-- One ground point of the foot_detector variant. -/
structure FDGroundPoint where
  position : ℤ × ℤ
  confidence : ℚ
  index : ℕ

/-- Descending-confidence order used by
`ground_points.sort(key=lambda p: p['confidence'], reverse=True)`. -/
def geConf (p q : FDGroundPoint) : Prop := q.confidence ≤ p.confidence

instance : DecidableRel geConf :=
  fun p q => inferInstanceAs (Decidable (q.confidence ≤ p.confidence))

instance : IsTotal FDGroundPoint geConf := ⟨fun p q => le_total q.confidence p.confidence⟩

instance : IsTrans FDGroundPoint geConf := ⟨fun _ _ _ h h' => le_trans h' h⟩

/-- `SkeletonTracker.get_ground_contact_points(pose_landmarks, w, h)`
(src/foot_detector.py, lines 136-156): collect the heel/toe/ankle landmarks
with visibility above 0.3, then stably sort by descending confidence
(CPython's `list.sort(..., reverse=True)` is stable). -/
def SkeletonTracker.get_ground_contact_points (pose : List Landmark) (w h : ℚ) :
    List FDGroundPoint :=
  let pts := fdFootIndices.filterMap fun idx =>
    match pose.get? idx with
    | some lm =>
      if lm.visibility > 3/10 then
        some { position := (pyInt (lm.x * w), pyInt (lm.y * h)),
               confidence := lm.visibility, index := idx }
      else none
    | none => none
  List.insertionSort geConf pts

/-! ### Boundary configuration loading

The three loader variants all read `config.json`; the file system is
embedded as `Option (List point)`: `none` for a missing/unreadable file,
`some pts` for a file whose `boundary_points` entry parses to `pts`. -/

/-- `EnhancedSkeletonTracker.load_boundary_points`
(src/enhanced_skeleton_tracker.py, lines 53-60): any failure silently
falls back to the default boundary `[(100, 400), (500, 400)]`. -/
def EnhancedSkeletonTracker.load_boundary_points
    (file : Option (List (ℤ × ℤ))) : List (ℤ × ℤ) :=
  match file with
  | some ps => ps
  | none => [(100, 400), (500, 400)]

/-- `Config.load_boundary_points` (src/config_manager.py, lines 23-35):
a missing or unreadable file calls `exit()` (modelled as `none`); a parsed
point list of any length is accepted unchanged. -/
def Config.load_boundary_points (file : Option (List (ℤ × ℤ))) :
    Option (List (ℤ × ℤ)) :=
  match file with
  | some ps => some ps
  | none => none

/-- `BoundaryDetector.load_boundary_config`
(src/modules/boundary_detector.py, lines 10-20): returns a success flag;
on failure the stored `original_boundary_points` keep their initial `[]`. -/
def BoundaryDetector.load_boundary_config (file : Option (List (ℤ × ℤ))) :
    Bool × List (ℤ × ℤ) :=
  match file with
  | some ps => (true, ps)
  | none => (false, [])

/-- A 30-landmark pose with a clearly-visible left knee (index 25,
visibility 0.9) and a barely-visible left heel (index 29, visibility 0.4);
all other landmarks are invisible. -/
def kneeHeelPose : List Landmark :=
  [⟨0,0,0⟩, ⟨0,0,0⟩, ⟨0,0,0⟩, ⟨0,0,0⟩, ⟨0,0,0⟩, ⟨0,0,0⟩, ⟨0,0,0⟩, ⟨0,0,0⟩,
   ⟨0,0,0⟩, ⟨0,0,0⟩, ⟨0,0,0⟩, ⟨0,0,0⟩, ⟨0,0,0⟩, ⟨0,0,0⟩, ⟨0,0,0⟩, ⟨0,0,0⟩,
   ⟨0,0,0⟩, ⟨0,0,0⟩, ⟨0,0,0⟩, ⟨0,0,0⟩, ⟨0,0,0⟩, ⟨0,0,0⟩, ⟨0,0,0⟩, ⟨0,0,0⟩,
   ⟨0,0,0⟩, ⟨1/2, 1/2, 9/10⟩, ⟨0,0,0⟩, ⟨0,0,0⟩, ⟨0,0,0⟩, ⟨1/4, 3/4, 2/5⟩]

/-- 21 frames, 0.5 s apart, starting at wall-clock time 10⁶ s, each one with
the ground point reporting a boundary violation: a subject continuously
violating for 10 seconds.  With the 2.0 s debounce alone, counting would fire
in 5 of these frames (at offsets 0, 2.5, 5, 7.5 and 10 s). -/
def tenSecondViolation : List (ℚ × Bool) :=
  [(1000000, true), (2000001/2, true), (1000001, true), (2000003/2, true),
   (1000002, true), (2000005/2, true), (1000003, true), (2000007/2, true),
   (1000004, true), (2000009/2, true), (1000005, true), (2000011/2, true),
   (1000006, true), (2000013/2, true), (1000007, true), (2000015/2, true),
   (1000008, true), (2000017/2, true), (1000009, true), (2000019/2, true),
   (1000010, true)]

/-- Fixture: one tracked identity, bound to YOLO ID 7, with a fresh position
filter at the origin. -/
def oneIdentityState : TrackerState :=
  { stable_players := [(1, ⟨(0, 0), 0, 7, (0, 0, 10, 10)⟩)],
    kalman_filters := [(1, KalmanTracker.init (0, 0))],
    next_stable_id := 2, frame_count := 0,
    violation_records := [], active_violations := [] }

/-- Fixture: identity 1 unseen for 61 frames with an open violation episode
started at frame 5; identity 2 seen in the previous frame. -/
def staleIdentityState : TrackerState :=
  { stable_players := [(1, ⟨(0, 0), 0, 7, (0, 0, 10, 10)⟩),
                       (2, ⟨(50, 50), 60, 8, (40, 40, 60, 60)⟩)],
    kalman_filters := [(1, KalmanTracker.init (0, 0)),
                       (2, KalmanTracker.init (50, 50))],
    next_stable_id := 3, frame_count := 61,
    violation_records := [(1, ⟨5⟩)], active_violations := [1] }

/-- Fixture: a one-identity manager state (identity 1, YOLO ID 7). -/
def oneIdentityIDM : IDMState :=
  { stable_players := [(1, ⟨(0, 0), 0, 7, (0, 0, 10, 10)⟩)], next_stable_id := 2 }

/-- Fixture: a short manager trace — two distinct subjects appear, one is
cleaned up, then a third appears. -/
def sampleOps : List IDMOp :=
  [IDMOp.resolve (0, 0) (0, 0, 10, 10) 7 1,
   IDMOp.resolve (500, 500) (490, 490, 510, 510) 8 1,
   IDMOp.cleanup 100,
   IDMOp.resolve (0, 0) (0, 0, 10, 10) 9 101]

/-! ## Lemmas about the boundary model -/

/-- Sorting an already strictly-x-sorted polyline is the identity. -/
theorem pySortByX_eq_of_chain (points : List (ℚ × ℚ))
    (h : List.Chain' ltX points) : pySortByX points = points :=
  List.Sorted.insertionSort_eq
    ((List.chain'_iff_pairwise.1 h).imp fun hab => le_of_lt hab)

/-- In a strictly-x-sorted nonempty polyline, every point lies strictly right
of a query x that is strictly left of the head. -/
theorem all_gt_of_chain_head (fx : ℚ) (l : List (ℚ × ℚ)) (p : ℚ × ℚ)
    (hch : List.Chain' ltX (p :: l)) (hfp : fx < p.1) :
    ∀ q ∈ p :: l, fx < q.1 := by
  have hp := List.chain'_iff_pairwise.1 hch
  intro q hq
  rcases List.mem_cons.1 hq with rfl | hq'
  · exact hfp
  · exact lt_trans hfp (List.rel_of_pairwise_cons hp hq')

/-- If the query x is strictly left of every point, no segment of the
`check_boundary_crossing` loop fires. -/
theorem segAny_false_of_all_gt (fx fy thr : ℚ) :
    ∀ l : List (ℚ × ℚ), (∀ p ∈ l, fx < p.1) →
      ((segments l).any fun s => segCrosses s.1 s.2 fx fy thr) = false
  | [], _ => rfl
  | [_], _ => rfl
  | p :: q :: rest, h => by
    have hp : fx < p.1 := h p (by simp)
    have hq : fx < q.1 := h q (by simp)
    have hrec := segAny_false_of_all_gt fx fy thr (q :: rest)
      (fun r hr => h r (List.mem_cons_of_mem p hr))
    have hseg : segCrosses p q fx fy thr = false := by
      by_cases hpq : p.1 < q.1 <;>
        simp [segCrosses, hpq, not_le.2 hp, not_le.2 hq]
    rw [show segments (p :: q :: rest) = (p, q) :: segments (q :: rest) from rfl,
      List.any_cons, hseg, Bool.false_or]
    exact hrec

/-- If the query x is strictly right of every point, no segment of the
`check_boundary_crossing` loop fires. -/
theorem segAny_false_of_all_lt (fx fy thr : ℚ) :
    ∀ l : List (ℚ × ℚ), (∀ p ∈ l, p.1 < fx) →
      ((segments l).any fun s => segCrosses s.1 s.2 fx fy thr) = false
  | [], _ => rfl
  | [_], _ => rfl
  | p :: q :: rest, h => by
    have hp : p.1 < fx := h p (by simp)
    have hq : q.1 < fx := h q (by simp)
    have hrec := segAny_false_of_all_lt fx fy thr (q :: rest)
      (fun r hr => h r (List.mem_cons_of_mem p hr))
    have hseg : segCrosses p q fx fy thr = false := by
      by_cases hpq : p.1 < q.1 <;>
        simp [segCrosses, hpq, not_le.2 hp, not_le.2 hq]
    rw [show segments (p :: q :: rest) = (p, q) :: segments (q :: rest) from rfl,
      List.any_cons, hseg, Bool.false_or]
    exact hrec

/-- The `check_boundary_crossing` disjunction over the segments of a strictly
x-sorted polyline, for a query x strictly inside the x-range, is exactly the
threshold test against the interpolated boundary y. -/
theorem segAny_iff_interpY (fx fy thr : ℚ) :
    ∀ points : List (ℚ × ℚ), List.Chain' ltX points → 2 ≤ points.length →
      points.headI.1 < fx → (∀ r ∈ points.getLast?, fx < r.1) →
      (((segments points).any fun s => segCrosses s.1 s.2 fx fy thr) = true ↔
        fy > interpY points fx + thr)
  | [], _, hlen, _, _ => by simp at hlen
  | [_], _, hlen, _, _ => by simp at hlen
  | p :: q :: rest, hch, _, hlo, hhi => by
    obtain ⟨hpq, hch'⟩ := List.chain'_cons.1 hch
    have hpq' : p.1 < q.1 := hpq
    have hlo' : p.1 < fx := by simpa using hlo
    have hne : q.1 - p.1 ≠ 0 := sub_ne_zero.2 (ne_of_gt hpq')
    have hsegs : segments (p :: q :: rest) = (p, q) :: segments (q :: rest) := rfl
    by_cases hA : fx ≤ q.1
    · -- the covering segment is (p, q)
      have harith : (q.2 - p.2) / (q.1 - p.1) * fx +
          (p.2 - (q.2 - p.2) / (q.1 - p.1) * p.1)
          = p.2 + (q.2 - p.2) * (fx - p.1) / (q.1 - p.1) := by
        field_simp
        ring
      have hfirst : segCrosses p q fx fy thr = true ↔
          fy > p.2 + (q.2 - p.2) * (fx - p.1) / (q.1 - p.1) + thr := by
        simp [segCrosses, hpq', hlo'.le, hA, hne, harith]
      have hI : interpY (p :: q :: rest) fx
          = p.2 + (q.2 - p.2) * (fx - p.1) / (q.1 - p.1) := by
        simp [interpY, hA]
      rcases lt_or_eq_of_le hA with hA' | hA'
      · -- fx strictly inside the first segment: all later segments miss
        have hrest : ((segments (q :: rest)).any
            fun s => segCrosses s.1 s.2 fx fy thr) = false :=
          segAny_false_of_all_gt fx fy thr (q :: rest)
            (all_gt_of_chain_head fx rest q hch' hA')
        rw [hsegs, List.any_cons, hrest, hI, Bool.or_false]
        exact hfirst
      · -- fx is exactly the shared vertex q: the next segment agrees
        have hIq : p.2 + (q.2 - p.2) * (fx - p.1) / (q.1 - p.1) = q.2 := by
          rw [hA']
          field_simp
        cases rest with
        | nil =>
          exfalso
          have := hhi q (by simp)
          rw [hA'] at this
          exact lt_irrefl _ this
        | cons r rest' =>
          obtain ⟨hqr, hch''⟩ := List.chain'_cons.1 hch'
          have hqr' : q.1 < r.1 := hqr
          have hner : r.1 - q.1 ≠ 0 := sub_ne_zero.2 (ne_of_gt hqr')
          have harith2 : (r.2 - q.2) / (r.1 - q.1) * fx +
              (q.2 - (r.2 - q.2) / (r.1 - q.1) * q.1) = q.2 := by
            rw [hA']
            ring
          have hsecond : segCrosses q r fx fy thr = true ↔ fy > q.2 + thr := by
            simp [segCrosses, hqr', le_of_eq hA'.symm,
              hA' ▸ le_of_lt hqr', hner, harith2]
          have hrest : ((segments (r :: rest')).any
              fun s => segCrosses s.1 s.2 fx fy thr) = false :=
            segAny_false_of_all_gt fx fy thr (r :: rest')
              (all_gt_of_chain_head fx rest' r hch'' (hA' ▸ hqr'))
          rw [hsegs, List.any_cons,
            show segments (q :: r :: rest') = (q, r) :: segments (r :: rest') from rfl,
            List.any_cons, hrest, hI, hIq, Bool.or_false, Bool.or_eq_true]
          constructor
          · rintro (h1 | h2)
            · exact hIq ▸ hfirst.1 h1
            · exact hsecond.1 h2
          · intro hgt
            exact Or.inr (hsecond.2 hgt)
    · -- fx is right of q: the first segment misses, recurse
      push_neg at hA
      have hmiss : segCrosses p q fx fy thr = false := by
        simp [segCrosses, hpq', not_le.2 hA]
      cases rest with
      | nil =>
        exfalso
        exact absurd (hhi q (by simp)) (not_lt.2 (le_of_lt hA))
      | cons r rest' =>
        have hrec := segAny_iff_interpY fx fy thr (q :: r :: rest') hch'
          (by simp) (by simpa using hA) (by simpa using hhi)
        have hIrec : interpY (p :: q :: r :: rest') fx
            = interpY (q :: r :: rest') fx := by
          simp [interpY, not_le.2 hA]
        rw [hsegs, List.any_cons, hmiss, Bool.false_or, hIrec]
        exact hrec

/-- The interpolation scan of `is_point_below_boundary` over a strictly
x-sorted polyline, for a query x inside the closed x-range, finds the
interpolated boundary y. -/
theorem interpScan_eq_interpY (fx : ℚ) :
    ∀ points : List (ℚ × ℚ), List.Chain' ltX points →
      points.headI.1 ≤ fx → (∀ r ∈ points.getLast?, fx ≤ r.1) →
      2 ≤ points.length →
      interpScan (segments points) fx = some (interpY points fx)
  | p :: q :: rest, hch, hlo, hhi, _ => by
    obtain ⟨hpq, hch'⟩ := List.chain'_cons.1 hch
    have hpq' : p.1 < q.1 := hpq
    have hlo' : p.1 ≤ fx := by simpa using hlo
    have hne : q.1 - p.1 ≠ 0 := sub_ne_zero.2 (ne_of_gt hpq')
    have hsegs : segments (p :: q :: rest) = (p, q) :: segments (q :: rest) := rfl
    by_cases hA : fx ≤ q.1
    · rw [hsegs]
      simp [interpScan, interpY, hlo', hA, hne]
    · push_neg at hA
      cases rest with
      | nil =>
        exact absurd (hhi q (by simp)) (not_le.2 hA)
      | cons r rest' =>
        have hrec := interpScan_eq_interpY fx (q :: r :: rest') hch'
          (le_of_lt (by simpa using hA)) (by simpa using hhi) (by simp)
        rw [hsegs]
        rw [show interpScan ((p, q) :: segments (q :: r :: rest')) fx
            = interpScan (segments (q :: r :: rest')) fx from by
          simp [interpScan, not_le.2 hA]]
        rw [hrec]
        simp [interpY, not_le.2 hA]

/-- One `check_boundary_crossing` segment test is symmetric in its two
endpoints (the loop body orients every segment left-to-right itself). -/
theorem segCrosses_comm (p q : ℚ × ℚ) (fx fy thr : ℚ) :
    segCrosses p q fx fy thr = segCrosses q p fx fy thr := by
  rcases lt_trichotomy p.1 q.1 with h | h | h
  · simp [segCrosses, h, not_lt_of_gt h]
  · simp [segCrosses, h, lt_irrefl, sub_self]
  · simp [segCrosses, h, not_lt_of_gt h]

/-- One `point_crosses_boundary` segment test is symmetric in its two
endpoints (interpolating from either endpoint gives the same line). -/
theorem segCrossesEST_comm (p1 p2 : ℚ × ℚ) (x y : ℚ) :
    segCrossesEST p1 p2 x y = segCrossesEST p2 p1 x y := by
  by_cases hv : p1.1 = p2.1
  · simp [segCrossesEST, hv, min_comm, max_comm]
  · have hv' : ¬ p2.1 = p1.1 := fun h => hv h.symm
    have h2 : p1.1 - p2.1 ≠ 0 := sub_ne_zero.2 hv
    have h1 : p2.1 - p1.1 ≠ 0 := sub_ne_zero.2 (fun h => hv h.symm)
    have harith : p1.2 + (p2.2 - p1.2) / (p2.1 - p1.1) * (x - p1.1)
        = p2.2 + (p1.2 - p2.2) / (p1.1 - p2.1) * (x - p2.1) := by
      field_simp
      ring
    simp only [segCrossesEST, if_neg hv, if_neg hv']
    by_cases hc : min p1.1 p2.1 ≤ x ∧ x ≤ max p1.1 p2.1
    · have hc' : min p2.1 p1.1 ≤ x ∧ x ≤ max p2.1 p1.1 := by
        rwa [min_comm, max_comm]
      rw [if_pos hc, if_pos hc', harith]
    · have hc' : ¬ (min p2.1 p1.1 ≤ x ∧ x ≤ max p2.1 p1.1) := by
        rwa [min_comm, max_comm]
      rw [if_neg hc, if_neg hc']

/-- Appending one point to a nonempty polyline appends one segment from its
last point. -/
theorem segments_append_singleton :
    ∀ (xs : List (ℚ × ℚ)) (a : ℚ × ℚ),
      segments (xs ++ [a])
        = segments xs ++ ((xs.getLast?).map fun b => (b, a)).toList
  | [], _ => rfl
  | [_], _ => rfl
  | x :: y :: xs, a => by
    have ih := segments_append_singleton (y :: xs) a
    simp only [List.cons_append] at ih ⊢
    rw [show segments (x :: y :: (xs ++ [a]))
        = (x, y) :: segments (y :: (xs ++ [a])) from rfl,
      show segments (x :: y :: xs) = (x, y) :: segments (y :: xs) from rfl, ih]
    simp

/-- The segments of the reversed polyline are the reversed, endpoint-swapped
segments. -/
theorem segments_reverse :
    ∀ l : List (ℚ × ℚ),
      segments l.reverse = (segments l).reverse.map Prod.swap
  | [] => rfl
  | [_] => rfl
  | a :: b :: t => by
    have ih := segments_reverse (b :: t)
    rw [show (a :: b :: t).reverse = (b :: t).reverse ++ [a] by simp,
      segments_append_singleton, ih,
      show segments (a :: b :: t) = (a, b) :: segments (b :: t) from rfl]
    simp [List.getLast?_reverse]

instance : IsAntisymm (ℚ × ℚ) ltX :=
  ⟨fun p q h h' =>
    absurd (show q.1 < p.1 from h') (lt_asymm (show p.1 < q.1 from h))⟩

/-- When all x-coordinates are pairwise distinct, sorting by x is insensitive
to the input order (with equal x's the stable sort is order-sensitive, see the
C8 counterexample). -/
theorem pySortByX_reverse_of_nodup (points : List (ℚ × ℚ))
    (hnd : (points.map Prod.fst).Nodup) :
    pySortByX points.reverse = pySortByX points := by
  have hstrict : ∀ l : List (ℚ × ℚ), (l.map Prod.fst).Nodup →
      List.Sorted leX (List.insertionSort leX l) →
      List.Sorted ltX (List.insertionSort leX l) := by
    intro l hl hs
    have hperm : List.Perm (List.insertionSort leX l) l :=
      List.perm_insertionSort leX l
    have hnd' : ((List.insertionSort leX l).map Prod.fst).Nodup :=
      (hperm.map Prod.fst).nodup_iff.2 hl
    have hne : List.Pairwise (fun (p q : ℚ × ℚ) => p.1 ≠ q.1)
        (List.insertionSort leX l) := List.pairwise_map.1 hnd'
    exact (hs.and hne).imp fun hab => lt_of_le_of_ne hab.1 hab.2
  have hndr : (points.reverse.map Prod.fst).Nodup := by
    rw [List.map_reverse]
    exact List.nodup_reverse.2 hnd
  have hs1 := hstrict points.reverse hndr
    (List.sorted_insertionSort leX points.reverse)
  have hs2 := hstrict points hnd (List.sorted_insertionSort leX points)
  have hperm : List.Perm (List.insertionSort leX points.reverse)
      (List.insertionSort leX points) :=
    ((List.perm_insertionSort leX points.reverse).trans
      points.reverse_perm).trans (List.perm_insertionSort leX points).symm
  exact List.eq_of_perm_of_sorted hperm hs1 hs2

/-- `ViolationDetector.check_boundary_crossing` is insensitive to reversing
the polyline point order. -/
theorem check_boundary_crossing_reverse (points : List (ℚ × ℚ)) (fx fy : ℚ) :
    check_boundary_crossing points.reverse fx fy
      = check_boundary_crossing points fx fy := by
  unfold check_boundary_crossing
  rw [segments_reverse, List.any_map, List.any_reverse]
  congr 1
  funext s
  simp only [Function.comp]
  exact segCrosses_comm s.2 s.1 fx fy BOUNDARY_THRESHOLD

/-- `EnhancedSkeletonTracker.point_crosses_boundary` is insensitive to
reversing the polyline point order. -/
theorem point_crosses_boundary_reverse (pts : List (ℚ × ℚ)) (x y : ℚ) :
    point_crosses_boundary pts.reverse x y = point_crosses_boundary pts x y := by
  unfold point_crosses_boundary
  rw [List.length_reverse]
  by_cases h : pts.length < 2
  · simp [h]
  · rw [if_neg h, if_neg h, segments_reverse, List.any_map, List.any_reverse]
    congr 1
    funext s
    simp only [Function.comp]
    exact segCrossesEST_comm s.2 s.1 x y

/-- `BoundaryDetector.is_point_below_boundary` is insensitive to reversing
the polyline point order provided no two points share an x-coordinate. -/
theorem is_point_below_boundary_reverse (points : List (ℚ × ℚ)) (pt : ℚ × ℚ)
    (hnd : (points.map Prod.fst).Nodup) :
    is_point_below_boundary points.reverse pt
      = is_point_below_boundary points pt := by
  unfold is_point_below_boundary
  rw [List.length_reverse, pySortByX_reverse_of_nodup points hnd]

/-- `is_point_below_boundary` on a strictly x-sorted polyline, for a query x
strictly inside the x-range, compares y against the interpolated boundary y
with no threshold. -/
theorem is_point_below_eq (points : List (ℚ × ℚ)) (fx fy : ℚ)
    (hch : List.Chain' ltX points) (hlen : 2 ≤ points.length)
    (hlo : points.headI.1 < fx) (hhi : ∀ r ∈ points.getLast?, fx < r.1) :
    is_point_below_boundary points (fx, fy) = decide (fy > interpY points fx) := by
  have hnlt : ¬ points.length < 2 := by omega
  obtain ⟨lst, hlst⟩ : ∃ r, points.getLast? = some r := by
    cases hx : points.getLast? with
    | some r => exact ⟨r, rfl⟩
    | none =>
      exfalso
      rcases points with _ | ⟨a, l⟩
      · simp at hlen
      · simp [List.getLast?_eq_none_iff] at hx
  have hhil : fx < lst.1 := hhi lst (by simp [hlst])
  simp only [is_point_below_boundary, if_neg hnlt, pySortByX_eq_of_chain points hch]
  have h1 : ¬ fx < points.headI.1 := not_lt.2 (le_of_lt hlo)
  have h2 : ¬ fx > (points.getLastD (0, 0)).1 := by
    rw [List.getLastD_eq_getLast?, hlst]
    exact not_lt.2 (le_of_lt hhil)
  rw [if_neg h1, if_neg h2, interpScan_eq_interpY fx points hch (le_of_lt hlo)
    (fun r hr => le_of_lt (hhi r hr)) hlen]

/-! ## Lemmas about association lists -/

theorem keysA_updateA {α : Type} (l : List (ℕ × α)) (k : ℕ) (f : α → α) :
    keysA (updateA l k f) = keysA l := by
  induction l with
  | nil => rfl
  | cons kv rest ih =>
    by_cases h : kv.1 = k <;>
      simp [keysA, updateA, h] at ih ⊢ <;> exact ih

theorem lookupA_cons_ne {α : Type} (kv : ℕ × α) (rest : List (ℕ × α)) (k : ℕ)
    (h : (kv.1 == k) = false) : lookupA (kv :: rest) k = lookupA rest k := by
  unfold lookupA
  simp only [List.find?_cons, h]

theorem lookupA_cons_eq {α : Type} (kv : ℕ × α) (rest : List (ℕ × α)) (k : ℕ)
    (h : (kv.1 == k) = true) : lookupA (kv :: rest) k = some kv.2 := by
  unfold lookupA
  simp only [List.find?_cons, h]

theorem eraseA_cons_self {α : Type} (kv : ℕ × α) (rest : List (ℕ × α)) (k' : ℕ)
    (h : kv.1 = k') : eraseA (kv :: rest) k' = eraseA rest k' := by
  simp [eraseA, List.filter_cons, h]

theorem eraseA_cons_ne {α : Type} (kv : ℕ × α) (rest : List (ℕ × α)) (k' : ℕ)
    (h : ¬ kv.1 = k') : eraseA (kv :: rest) k' = kv :: eraseA rest k' := by
  simp [eraseA, List.filter_cons, h]

theorem lookupA_eraseA_ne {α : Type} (l : List (ℕ × α)) (k k' : ℕ)
    (h : k ≠ k') : lookupA (eraseA l k') k = lookupA l k := by
  induction l with
  | nil => rfl
  | cons kv rest ih =>
    by_cases hk : kv.1 = k'
    · rw [eraseA_cons_self kv rest k' hk, ih,
        lookupA_cons_ne kv rest k (by simp [hk, Ne.symm h])]
    · by_cases hk2 : (kv.1 == k) = true
      · rw [eraseA_cons_ne kv rest k' hk, lookupA_cons_eq _ _ _ hk2,
          lookupA_cons_eq _ _ _ hk2]
      · rw [eraseA_cons_ne kv rest k' hk,
          lookupA_cons_ne _ _ _ (by simpa using hk2),
          lookupA_cons_ne _ _ _ (by simpa using hk2), ih]

/-! ## Lemmas about the closest-predicted-position scan -/

/-- The scan never loses a `some` accumulator. -/
theorem closestScan_go_ne_none (center : ℤ × ℤ) :
    ∀ (l : List (ℕ × (ℤ × ℤ))) (acc : Option (ℕ × ℤ)),
      (l.foldl (fun acc kv =>
        let d := dist2 center kv.2
        let keep : Bool := decide (d < MAX_DISTANCE_SQ) &&
          (match acc with
           | none => true
           | some m => decide (d < m.2))
        if keep then some (kv.1, d) else acc) acc) = none →
      acc = none ∧ ∀ kv ∈ l, ¬ dist2 center kv.2 < MAX_DISTANCE_SQ := by
  intro l
  induction l with
  | nil => intro acc h; exact ⟨h, by simp⟩
  | cons kv rest ih =>
    intro acc h
    rw [List.foldl_cons] at h
    obtain ⟨hacc', hrest⟩ := ih _ h
    by_cases hd : dist2 center kv.2 < MAX_DISTANCE_SQ
    · exfalso
      rcases hacc : acc with _ | m
      · rw [hacc] at hacc'
        simp [hd] at hacc'
      · rw [hacc] at hacc'
        by_cases hm : dist2 center kv.2 < m.2 <;> simp [hd, hm] at hacc'
    · refine ⟨?_, ?_⟩
      · rcases hacc : acc with _ | m
        · rfl
        · rw [hacc] at hacc'
          simp [hd] at hacc'
      · intro kv' hkv'
        rcases List.mem_cons.1 hkv' with rfl | hkv'
        · exact hd
        · exact hrest kv' hkv'

/-- What a successful scan returns: a below-threshold entry of the list (or
the carried accumulator) whose distance is minimal among all below-threshold
entries and no worse than the accumulator. -/
theorem closestScan_go_some (center : ℤ × ℤ) :
    ∀ (l : List (ℕ × (ℤ × ℤ))) (acc : Option (ℕ × ℤ)) (m : ℕ × ℤ),
      (∀ a, acc = some a → a.2 < MAX_DISTANCE_SQ) →
      (l.foldl (fun acc kv =>
        let d := dist2 center kv.2
        let keep : Bool := decide (d < MAX_DISTANCE_SQ) &&
          (match acc with
           | none => true
           | some m => decide (d < m.2))
        if keep then some (kv.1, d) else acc) acc) = some m →
      m.2 < MAX_DISTANCE_SQ ∧
      (acc = some m ∨ ∃ kv ∈ l, m = (kv.1, dist2 center kv.2)) ∧
      (∀ kv ∈ l, dist2 center kv.2 < MAX_DISTANCE_SQ →
        m.2 ≤ dist2 center kv.2) ∧
      (∀ a, acc = some a → m.2 ≤ a.2) := by
  intro l
  induction l with
  | nil =>
    intro acc m hacc h
    simp only [List.foldl_nil] at h
    exact ⟨hacc m h, Or.inl h, by simp, fun a ha => by rw [ha] at h; cases h; rfl⟩
  | cons kv rest ih =>
    intro acc m hacc h
    rw [List.foldl_cons] at h
    rcases acc with _ | m0
    · -- empty accumulator: the head is taken iff it is below threshold
      by_cases hd : dist2 center kv.2 < MAX_DISTANCE_SQ
      · rw [show (if (decide (dist2 center kv.2 < MAX_DISTANCE_SQ) && true) = true
            then some (kv.1, dist2 center kv.2) else none)
            = some (kv.1, dist2 center kv.2) from by simp [hd]] at h
        obtain ⟨hm1, hm2, hm3, hm4⟩ := ih (some (kv.1, dist2 center kv.2)) m
          (by rintro a ha; cases ha; exact hd) h
        refine ⟨hm1, ?_, ?_, by rintro a ha; cases ha⟩
        · rcases hm2 with hm2 | ⟨kv', hkv', hm2⟩
          · exact Or.inr ⟨kv, List.mem_cons_self kv rest,
              (Option.some.inj hm2).symm⟩
          · exact Or.inr ⟨kv', List.mem_cons_of_mem kv hkv', hm2⟩
        · intro kv' hkv' hlt
          rcases List.mem_cons.1 hkv' with rfl | hkv'
          · exact hm4 (kv'.1, dist2 center kv'.2) rfl
          · exact hm3 kv' hkv' hlt
      · rw [show (if (decide (dist2 center kv.2 < MAX_DISTANCE_SQ) && true) = true
            then some (kv.1, dist2 center kv.2) else none) = none from by
          simp [hd]] at h
        obtain ⟨hm1, hm2, hm3, hm4⟩ := ih none m (by rintro a ha; cases ha) h
        refine ⟨hm1, ?_, ?_, by rintro a ha; cases ha⟩
        · rcases hm2 with hm2 | ⟨kv', hkv', hm2⟩
          · cases hm2
          · exact Or.inr ⟨kv', List.mem_cons_of_mem kv hkv', hm2⟩
        · intro kv' hkv' hlt
          rcases List.mem_cons.1 hkv' with rfl | hkv'
          · exact absurd hlt hd
          · exact hm3 kv' hkv' hlt
    · -- carried accumulator m0
      have hm0lt : m0.2 < MAX_DISTANCE_SQ := hacc m0 rfl
      by_cases hkeep : dist2 center kv.2 < MAX_DISTANCE_SQ ∧
          dist2 center kv.2 < m0.2
      · rw [show (if (decide (dist2 center kv.2 < MAX_DISTANCE_SQ) &&
            decide (dist2 center kv.2 < m0.2)) = true
            then some (kv.1, dist2 center kv.2) else some m0)
            = some (kv.1, dist2 center kv.2) from by
          simp [hkeep.1, hkeep.2]] at h
        obtain ⟨hm1, hm2, hm3, hm4⟩ := ih (some (kv.1, dist2 center kv.2)) m
          (by rintro a ha; cases ha; exact hkeep.1) h
        refine ⟨hm1, ?_, ?_, ?_⟩
        · rcases hm2 with hm2 | ⟨kv', hkv', hm2⟩
          · exact Or.inr ⟨kv, List.mem_cons_self kv rest,
              (Option.some.inj hm2).symm⟩
          · exact Or.inr ⟨kv', List.mem_cons_of_mem kv hkv', hm2⟩
        · intro kv' hkv' hlt
          rcases List.mem_cons.1 hkv' with rfl | hkv'
          · exact hm4 (kv'.1, dist2 center kv'.2) rfl
          · exact hm3 kv' hkv' hlt
        · rintro a ha
          cases ha
          exact le_of_lt (lt_of_le_of_lt
            (hm4 (kv.1, dist2 center kv.2) rfl) hkeep.2)
      · rw [show (if (decide (dist2 center kv.2 < MAX_DISTANCE_SQ) &&
            decide (dist2 center kv.2 < m0.2)) = true
            then some (kv.1, dist2 center kv.2) else some m0) = some m0 from by
          rcases Decidable.not_and_iff_or_not.1 hkeep with hnd | hnd <;>
            simp [hnd]] at h
        obtain ⟨hm1, hm2, hm3, hm4⟩ := ih (some m0) m hacc h
        refine ⟨hm1, ?_, ?_, hm4⟩
        · rcases hm2 with hm2 | ⟨kv', hkv', hm2⟩
          · exact Or.inl hm2
          · exact Or.inr ⟨kv', List.mem_cons_of_mem kv hkv', hm2⟩
        · intro kv' hkv' hlt
          rcases List.mem_cons.1 hkv' with rfl | hkv'
          · have hnm : ¬ dist2 center kv'.2 < m0.2 := fun hc =>
              hkeep ⟨hlt, hc⟩
            exact le_trans (hm4 m0 rfl) (not_lt.1 hnm)
          · exact hm3 kv' hkv' hlt

/-! ## Lemmas about `PlayerTracker.get_stable_id` -/

/-- Step 1: a detection whose transient YOLO ID is already bound is resolved
to that identity; no identity is created. -/
theorem get_stable_id_yolo_match (st : TrackerState) (center_pos : ℤ × ℤ)
    (bbox : ℤ × ℤ × ℤ × ℤ) (yolo_id : ℕ) (sp : ℕ × PlayerRec)
    (h : st.stable_players.find? (fun sp => sp.2.yolo_id == yolo_id) = some sp) :
    (PlayerTracker.get_stable_id st center_pos bbox yolo_id).1 = sp.1 ∧
    (PlayerTracker.get_stable_id st center_pos bbox yolo_id).2.next_stable_id
      = st.next_stable_id ∧
    keysA (PlayerTracker.get_stable_id st center_pos bbox yolo_id).2.stable_players
      = keysA st.stable_players := by
  simp only [PlayerTracker.get_stable_id]
  rw [h]
  dsimp only
  exact ⟨rfl, rfl, keysA_updateA _ _ _⟩

/-- Step 2: with no YOLO binding, a successful closest-predicted-position scan
resolves to the scanned identity; no identity is created. -/
theorem get_stable_id_closest_match (st : TrackerState) (center_pos : ℤ × ℤ)
    (bbox : ℤ × ℤ × ℤ × ℤ) (yolo_id : ℕ) (m : ℕ × ℤ)
    (hy : st.stable_players.find? (fun sp => sp.2.yolo_id == yolo_id) = none)
    (hc : closestScan center_pos (predictedOf st) = some m) :
    (PlayerTracker.get_stable_id st center_pos bbox yolo_id).1 = m.1 ∧
    (PlayerTracker.get_stable_id st center_pos bbox yolo_id).2.next_stable_id
      = st.next_stable_id ∧
    keysA (PlayerTracker.get_stable_id st center_pos bbox yolo_id).2.stable_players
      = keysA st.stable_players := by
  unfold predictedOf at hc
  simp only [PlayerTracker.get_stable_id]
  rw [hy, hc]
  dsimp only
  exact ⟨rfl, rfl, keysA_updateA _ _ _⟩

/-- Step 3: with no YOLO binding and no predicted-position match, a successful
bbox-overlap search resolves to the overlapping identity; no identity is
created. -/
theorem get_stable_id_overlap_match (st : TrackerState) (center_pos : ℤ × ℤ)
    (bbox : ℤ × ℤ × ℤ × ℤ) (yolo_id : ℕ) (sp : ℕ × PlayerRec)
    (hy : st.stable_players.find? (fun sp => sp.2.yolo_id == yolo_id) = none)
    (hc : closestScan center_pos (predictedOf st) = none)
    (ho : st.stable_players.find? (fun sp => overlaps bbox sp.2.bbox) = some sp) :
    (PlayerTracker.get_stable_id st center_pos bbox yolo_id).1 = sp.1 ∧
    (PlayerTracker.get_stable_id st center_pos bbox yolo_id).2.next_stable_id
      = st.next_stable_id ∧
    keysA (PlayerTracker.get_stable_id st center_pos bbox yolo_id).2.stable_players
      = keysA st.stable_players := by
  unfold predictedOf at hc
  simp only [PlayerTracker.get_stable_id]
  rw [hy, hc, ho]
  dsimp only
  exact ⟨rfl, rfl, keysA_updateA _ _ _⟩

/-- Step 4: when all three match steps fail, a fresh identity is created with
the next stable ID and the counter advances. -/
theorem get_stable_id_create (st : TrackerState) (center_pos : ℤ × ℤ)
    (bbox : ℤ × ℤ × ℤ × ℤ) (yolo_id : ℕ)
    (hy : st.stable_players.find? (fun sp => sp.2.yolo_id == yolo_id) = none)
    (hc : closestScan center_pos (predictedOf st) = none)
    (ho : st.stable_players.find? (fun sp => overlaps bbox sp.2.bbox) = none) :
    (PlayerTracker.get_stable_id st center_pos bbox yolo_id).1 = st.next_stable_id ∧
    (PlayerTracker.get_stable_id st center_pos bbox yolo_id).2.next_stable_id
      = st.next_stable_id + 1 ∧
    keysA (PlayerTracker.get_stable_id st center_pos bbox yolo_id).2.stable_players
      = keysA st.stable_players ++ [st.next_stable_id] := by
  unfold predictedOf at hc
  simp only [PlayerTracker.get_stable_id]
  rw [hy, hc, ho]
  dsimp only
  exact ⟨rfl, rfl, by simp [keysA]⟩

/-! ## Lemmas about `PlayerIDManager` -/

/-- Every manager resolution either updates an existing identity (keys and
`next_stable_id` unchanged) or appends a brand-new identity keyed by the old
`next_stable_id` and advances the counter. -/
theorem idm_get_stable_id_cases (st : IDMState) (c : ℤ × ℤ)
    (b : ℤ × ℤ × ℤ × ℤ) (y f : ℕ) :
    ((PlayerIDManager.get_stable_id st c b y f).1 ∈ keysA st.stable_players ∧
     (PlayerIDManager.get_stable_id st c b y f).2.next_stable_id
       = st.next_stable_id ∧
     keysA (PlayerIDManager.get_stable_id st c b y f).2.stable_players
       = keysA st.stable_players) ∨
    ((PlayerIDManager.get_stable_id st c b y f).1 = st.next_stable_id ∧
     (PlayerIDManager.get_stable_id st c b y f).2.next_stable_id
       = st.next_stable_id + 1 ∧
     keysA (PlayerIDManager.get_stable_id st c b y f).2.stable_players
       = keysA st.stable_players ++ [st.next_stable_id]) := by
  cases hy : st.stable_players.find? (fun sp => sp.2.yolo_id == y) with
  | some sp =>
    left
    simp only [PlayerIDManager.get_stable_id]
    rw [hy]
    dsimp only
    exact ⟨List.mem_map.2 ⟨sp, List.mem_of_find?_eq_some hy, rfl⟩, rfl,
      keysA_updateA _ _ _⟩
  | none =>
    cases hc : closestScan c
        (st.stable_players.map fun sp => (sp.1, sp.2.position)) with
    | some m =>
      left
      have hc' := hc
      unfold closestScan at hc'
      obtain ⟨_, hm2, _, _⟩ := closestScan_go_some c _ none m
        (by rintro a ha; cases ha) hc'
      have hkey : m.1 ∈ keysA st.stable_players := by
        rcases hm2 with hm2 | ⟨kv, hkv, rfl⟩
        · cases hm2
        · obtain ⟨sp, hsp, rfl⟩ := List.mem_map.1 hkv
          exact List.mem_map.2 ⟨sp, hsp, rfl⟩
      simp only [PlayerIDManager.get_stable_id]
      rw [hy, hc]
      dsimp only
      exact ⟨hkey, rfl, keysA_updateA _ _ _⟩
    | none =>
      cases ho : st.stable_players.find? (fun sp => overlaps b sp.2.bbox) with
      | some sp =>
        left
        simp only [PlayerIDManager.get_stable_id]
        rw [hy, hc, ho]
        dsimp only
        exact ⟨List.mem_map.2 ⟨sp, List.mem_of_find?_eq_some ho, rfl⟩, rfl,
          keysA_updateA _ _ _⟩
      | none =>
        right
        simp only [PlayerIDManager.get_stable_id]
        rw [hy, hc, ho]
        dsimp only
        exact ⟨rfl, rfl, by simp [keysA]⟩

/-- Resolution preserves the allocation invariant. -/
theorem idm_step_inv (st : IDMState) (c : ℤ × ℤ) (b : ℤ × ℤ × ℤ × ℤ) (y f : ℕ)
    (hinv : IDMInv st) : IDMInv (PlayerIDManager.get_stable_id st c b y f).2 := by
  rcases idm_get_stable_id_cases st c b y f with ⟨_, h2, h3⟩ | ⟨_, h2, h3⟩ <;>
    intro k hk <;> rw [h3] at hk <;> rw [h2]
  · exact hinv k hk
  · rcases List.mem_append.1 hk with hk | hk
    · exact lt_trans (hinv k hk) (Nat.lt_succ_self _)
    · simp at hk
      omega

theorem keysA_eraseA_subset {α : Type} (l : List (ℕ × α)) (k : ℕ) :
    keysA (eraseA l k) ⊆ keysA l := by
  intro x hx
  obtain ⟨kv, hkv, rfl⟩ := List.mem_map.1 hx
  exact List.mem_map.2 ⟨kv, List.mem_of_mem_filter hkv, rfl⟩

theorem foldl_eraseA_keys_subset {α : Type} :
    ∀ (l : List ℕ) (ps : List (ℕ × α)), keysA (l.foldl eraseA ps) ⊆ keysA ps
  | [], _ => fun _ hx => hx
  | a :: l, ps => fun _ hx =>
    keysA_eraseA_subset ps a (foldl_eraseA_keys_subset l (eraseA ps a) hx)

/-- Cleanup only shrinks the identity table and never touches the counter. -/
theorem idm_cleanup_inv (st : IDMState) (f : ℕ) (hinv : IDMInv st) :
    IDMInv (PlayerIDManager.cleanup_old_players st f).1 := by
  intro k hk
  exact hinv k (foldl_eraseA_keys_subset _ _ hk)

/-- Every ID allocated along a manager trace is at least the starting
`next_stable_id`, and the allocated IDs are strictly increasing. -/
theorem runIDM_alloc_spec :
    ∀ (ops : List IDMOp) (st : IDMState), IDMInv st →
      (∀ a ∈ (runIDM st ops).2, st.next_stable_id ≤ a) ∧
      List.Chain' (· < ·) (runIDM st ops).2
  | [], _, _ => ⟨by simp [runIDM], by simp [runIDM]⟩
  | IDMOp.resolve c b y f :: ops, st, hinv => by
    have hinv' := idm_step_inv st c b y f hinv
    obtain ⟨ih1, ih2⟩ :=
      runIDM_alloc_spec ops (PlayerIDManager.get_stable_id st c b y f).2 hinv'
    rcases idm_get_stable_id_cases st c b y f with ⟨_, h2, _⟩ | ⟨h1, h2, _⟩
    · -- matched an existing identity: nothing allocated this step
      have hlist : (runIDM st (IDMOp.resolve c b y f :: ops)).2
          = (runIDM (PlayerIDManager.get_stable_id st c b y f).2 ops).2 := by
        simp [runIDM, h2]
      rw [hlist]
      exact ⟨fun a ha => h2 ▸ ih1 a ha, ih2⟩
    · -- created: the fresh ID is the old counter, everything later is larger
      have hlist : (runIDM st (IDMOp.resolve c b y f :: ops)).2
          = st.next_stable_id
            :: (runIDM (PlayerIDManager.get_stable_id st c b y f).2 ops).2 := by
        simp [runIDM, h1, h2]
      rw [hlist]
      constructor
      · intro a ha
        rcases List.mem_cons.1 ha with rfl | ha
        · exact le_refl _
        · have := ih1 a ha
          rw [h2] at this
          omega
      · refine List.chain'_cons'.2 ⟨?_, ih2⟩
        intro a ha
        have := ih1 a (List.mem_of_mem_head? ha)
        rw [h2] at this
        omega
  | IDMOp.cleanup f :: ops, st, hinv => by
    have hinv' := idm_cleanup_inv st f hinv
    obtain ⟨ih1, ih2⟩ :=
      runIDM_alloc_spec ops (PlayerIDManager.cleanup_old_players st f).1 hinv'
    exact ⟨fun a ha => ih1 a ha, ih2⟩

/-! ## Lemmas about `PlayerTracker.cleanup_old_players` -/

theorem cleanup_remove_one_players (acc : TrackerState × List (ℕ × ℕ))
    (sid : ℕ) : (cleanup_remove_one acc sid).1.stable_players
      = eraseA acc.1.stable_players sid := by
  dsimp only [cleanup_remove_one]
  cases lookupA acc.1.violation_records sid <;> rfl

theorem cleanup_remove_one_records_ne (acc : TrackerState × List (ℕ × ℕ))
    (sid k : ℕ) (h : k ≠ sid) :
    lookupA (cleanup_remove_one acc sid).1.violation_records k
      = lookupA acc.1.violation_records k := by
  dsimp only [cleanup_remove_one]
  cases hx : lookupA acc.1.violation_records sid
  · rfl
  · exact lookupA_eraseA_ne _ k sid h

theorem cleanup_remove_one_flushed (acc : TrackerState × List (ℕ × ℕ))
    (sid : ℕ) : (cleanup_remove_one acc sid).2
      = acc.2 ++ ((lookupA acc.1.violation_records sid).map
          fun vr => (sid, vr.start_frame)).toList := by
  dsimp only [cleanup_remove_one]
  cases lookupA acc.1.violation_records sid <;> simp

/-- An entry survives the removal loop iff its key is not in the removal
list. -/
theorem cleanup_fold_players_mem :
    ∀ (l : List ℕ) (acc : TrackerState × List (ℕ × ℕ)) (e : ℕ × PlayerRec),
      e ∈ (l.foldl cleanup_remove_one acc).1.stable_players ↔
        e ∈ acc.1.stable_players ∧ e.1 ∉ l
  | [], acc, e => by simp
  | a :: l, acc, e => by
    rw [List.foldl_cons,
      cleanup_fold_players_mem l (cleanup_remove_one acc a) e,
      cleanup_remove_one_players]
    constructor
    · rintro ⟨he, hnl⟩
      rw [eraseA, List.mem_filter] at he
      obtain ⟨he, hne⟩ := he
      simp only [decide_eq_true_eq] at hne
      exact ⟨he, by simp [hne, hnl]⟩
    · rintro ⟨he, hnal⟩
      simp only [List.mem_cons, not_or] at hnal
      exact ⟨by rw [eraseA, List.mem_filter]; exact ⟨he, by simp [hnal.1]⟩,
        hnal.2⟩

/-- The episodes flushed by the removal loop over distinct IDs are exactly
the open records of those IDs, looked up in the starting state. -/
theorem cleanup_fold_flushed :
    ∀ (l : List ℕ) (acc : TrackerState × List (ℕ × ℕ)), l.Nodup →
      (l.foldl cleanup_remove_one acc).2
        = acc.2 ++ l.filterMap (fun sid =>
            (lookupA acc.1.violation_records sid).map
              fun vr => (sid, vr.start_frame))
  | [], acc, _ => by simp
  | a :: l, acc, hnd => by
    obtain ⟨hna, hnd'⟩ := List.nodup_cons.1 hnd
    rw [List.foldl_cons, cleanup_fold_flushed l (cleanup_remove_one acc a) hnd',
      cleanup_remove_one_flushed]
    have hcongr : l.filterMap (fun sid =>
        (lookupA (cleanup_remove_one acc a).1.violation_records sid).map
          fun vr => (sid, vr.start_frame))
        = l.filterMap (fun sid =>
          (lookupA acc.1.violation_records sid).map
            fun vr => (sid, vr.start_frame)) := by
      apply List.filterMap_congr
      intro sid hsid
      rw [cleanup_remove_one_records_ne acc a sid (fun h => hna (h ▸ hsid))]
    rw [hcongr, List.filterMap_cons]
    cases hx : lookupA acc.1.violation_records a <;> simp [hx]

/-- Under distinct keys, an association list binds each key to at most one
value. -/
theorem nodup_keys_unique {α : Type} :
    ∀ (l : List (ℕ × α)), (keysA l).Nodup →
      ∀ (k : ℕ) (a b : α), (k, a) ∈ l → (k, b) ∈ l → a = b
  | [], _, _, _, _, ha, _ => by cases ha
  | kv :: rest, hnd, k, a, b, ha, hb => by
    have hnd0 : (kv.1 :: keysA rest).Nodup := hnd
    obtain ⟨hk, hnd'⟩ := List.nodup_cons.1 hnd0
    rcases List.mem_cons.1 ha with ha' | ha' <;>
      rcases List.mem_cons.1 hb with hb' | hb'
    · exact congrArg Prod.snd (ha'.trans hb'.symm)
    · exfalso
      apply hk
      have hfst : kv.1 = k := by rw [← ha']
      rw [hfst]
      exact List.mem_map.2 ⟨(k, b), hb', rfl⟩
    · exfalso
      apply hk
      have hfst : kv.1 = k := by rw [← hb']
      rw [hfst]
      exact List.mem_map.2 ⟨(k, a), ha', rfl⟩
    · exact nodup_keys_unique rest hnd' k a b ha' hb'

/-- Filtering a distinct list for one of its members gives that singleton. -/
theorem filter_beq_of_nodup :
    ∀ (l : List ℕ), l.Nodup → ∀ sid ∈ l,
      l.filter (fun s => s == sid) = [sid]
  | [], _, _, h => by cases h
  | a :: l, hnd, sid, hmem => by
    obtain ⟨hna, hnd'⟩ := List.nodup_cons.1 hnd
    rcases List.mem_cons.1 hmem with rfl | hmem'
    · rw [List.filter_cons]
      simp only [beq_self_eq_true, if_pos]
      have : l.filter (fun s => s == sid) = [] := by
        rw [List.filter_eq_nil_iff]
        intro s hs
        simp only [beq_iff_eq]
        intro hcontra
        exact hna (hcontra ▸ hs)
      rw [this]
    · rw [List.filter_cons]
      have hne : ¬ (a == sid) = true := by
        simp only [beq_iff_eq]
        intro hcontra
        exact hna (hcontra ▸ hmem')
      simp only [hne, if_false]
      exact filter_beq_of_nodup l hnd' sid hmem'

/-- Filtering the flushed episodes by player ID keeps exactly the
contributions of that ID. -/
theorem flushed_filter_key :
    ∀ (l : List ℕ) (records : List (ℕ × ViolationRecord)) (sid : ℕ),
      (l.filterMap (fun s =>
        (lookupA records s).map fun vr => (s, vr.start_frame))).filter
          (fun e => e.1 == sid)
        = (l.filter (fun s => s == sid)).filterMap (fun s =>
            (lookupA records s).map fun vr => (s, vr.start_frame))
  | [], _, _ => rfl
  | a :: l, records, sid => by
    have ih := flushed_filter_key l records sid
    cases hx : lookupA records a with
    | none =>
      by_cases ha : (a == sid) = true <;>
        simp [List.filterMap_cons, List.filter_cons, hx, ha, ih]
    | some vr =>
      by_cases ha : (a == sid) = true <;>
        simp [List.filterMap_cons, List.filter_cons, hx, ha, ih]

/-! ## Lemmas about ground-contact extraction -/

/-- Mapping an extractor output back to its landmark name lists exactly the
names the extractor kept, in their original order. -/
theorem map_name_filterMap {α : Type} (names : List String)
    (f : String → Option α) (g : α → String)
    (hf : ∀ nm a, f nm = some a → g a = nm) :
    (names.filterMap f).map g = names.filter fun nm => (f nm).isSome := by
  induction names with
  | nil => rfl
  | cons nm rest ih =>
    cases hx : f nm with
    | some a =>
      simp only [List.filterMap_cons, List.filter_cons, hx, Option.isSome_some,
        if_pos, List.map_cons, hf nm a hx, ih]
    | none =>
      simp only [List.filterMap_cons, List.filter_cons, hx, Option.isSome_none,
        Bool.false_eq_true, if_false, ih]

/-! ## Lemmas about the violation state machine -/

/-- An eliminated player is skipped completely (`continue`): the state is
untouched and no event fires. -/
theorem step_of_out (p : PlayerData) (t : ℚ) (v : Bool) (h : p.is_out = true) :
    update_player_tracking_step p t v = (p, StepEvents.none) := by
  simp [update_player_tracking_step, h]

/-- A step that does not count a violation leaves the debounce timestamp
unchanged. -/
theorem step_last_of_not_counted (p : PlayerData) (t : ℚ) (v : Bool)
    (h : (update_player_tracking_step p t v).2.counted = false) :
    (update_player_tracking_step p t v).1.last_violation_time
      = p.last_violation_time := by
  cases ho : p.is_out <;> cases hv : v <;> cases hvi : p.is_violating <;>
    simp [update_player_tracking_step, ho, hv, hvi, StepEvents.none] at h ⊢ <;>
    split_ifs at h ⊢ <;> simp_all

/-- A step that counts a violation fired the strict 2-second debounce test
against the stored timestamp and re-arms the timer to the current time. -/
theorem step_counted (p : PlayerData) (t : ℚ) (v : Bool)
    (h : (update_player_tracking_step p t v).2.counted = true) :
    p.last_violation_time + 2 < t ∧
    (update_player_tracking_step p t v).1.last_violation_time = t := by
  cases ho : p.is_out <;> cases hv : v <;> cases hvi : p.is_violating <;>
    simp [update_player_tracking_step, ho, hv, hvi, StepEvents.none] at h ⊢ <;>
    split_ifs at h ⊢ <;> simp_all <;> linarith

/-- Consecutive counted violations of a run are separated by more than the
2-second debounce, and the first one is more than 2 seconds past the stored
timestamp. -/
theorem countedTimes_chain (frames : List (ℚ × Bool)) : ∀ p : PlayerData,
    List.Chain' (fun a b => a + 2 < b) (runPlayer p frames).2.1 ∧
    ∀ t1 ∈ ((runPlayer p frames).2.1).head?,
      p.last_violation_time + 2 < t1 := by
  induction frames with
  | nil => intro p; simp [runPlayer]
  | cons f fs ih =>
    intro p
    obtain ⟨ihc, ihh⟩ := ih (update_player_tracking_step p f.1 f.2).1
    by_cases hc : (update_player_tracking_step p f.1 f.2).2.counted = true
    · obtain ⟨hlt, hlast⟩ := step_counted p f.1 f.2 hc
      constructor
      · simp only [runPlayer, hc, if_pos]
        refine List.chain'_cons'.2 ⟨?_, ihc⟩
        intro y hy
        have := ihh y hy
        rw [hlast] at this
        exact this
      · simp only [runPlayer, hc, if_pos]
        intro t1 ht1
        simp at ht1
        subst ht1
        exact hlt
    · have hc' : (update_player_tracking_step p f.1 f.2).2.counted = false := by
        simpa using hc
      have hlast := step_last_of_not_counted p f.1 f.2 hc'
      constructor
      · simpa [runPlayer, hc'] using ihc
      · intro t1 ht1
        simp [runPlayer, hc'] at ht1
        have := ihh t1 (by simpa using ht1)
        rw [hlast] at this
        exact this

/-! ## Claims -/

/-- **C1, counterexample.**  The claim says a subject continuously violating
for 10 seconds at the 2.0 s debounce accumulates exactly 5 counted violations
while also transitioning to ELIMINATED after the 3rd count with no further
counting.  On the code the elimination cap wins: running a fresh subject
through 10 seconds of continuously-violating frames (sampled every 0.5 s —
the debounce alone would count in 5 of them, at offsets 0, 2.5, 5, 7.5, 10 s)
counts exactly 3 violations, not 5: the subject is eliminated at the 3rd
count and the remaining frames are skipped. -/
theorem c1_counterexample_three_not_five :
    (runPlayer PlayerData.init tenSecondViolation).1.violations ≠ 5 ∧
    (runPlayer PlayerData.init tenSecondViolation).1.violations = 3 ∧
    (runPlayer PlayerData.init tenSecondViolation).2.1
      = [1000000, 2000005/2, 1000005] := by
  norm_num [runPlayer, update_player_tracking_step, tenSecondViolation,
    PlayerData.init, StepEvents.none]

/-- **C1, amended.**  For a subject whose ground point continuously reports a
boundary violation for 10 seconds under the default 2.0 s debounce: the
violation count is incremented at most once per debounce interval
(consecutive counted violations in any run are separated by strictly more
than 2 seconds), the subject transitions to ELIMINATED at the 3rd count
(reaching 3 counted violations always sets the eliminated flag), and once
eliminated no further violations are counted and no further episodes are
opened even if the ground point still reports violation — so the 10-second
run accumulates exactly 3 counted violations (not 5, not 1, not one per
frame: 21 violating frames produce 3 counts and a single opened episode). -/
theorem c1_amended_debounce_and_elimination :
    ((runPlayer PlayerData.init tenSecondViolation).1.violations = 3 ∧
     (runPlayer PlayerData.init tenSecondViolation).1.is_out = true ∧
     (runPlayer PlayerData.init tenSecondViolation).2.1
       = [1000000, 2000005/2, 1000005] ∧
     (runPlayer PlayerData.init tenSecondViolation).2.2 = 1) ∧
    (∀ (p : PlayerData) (t : ℚ) (v : Bool), p.is_out = true →
      update_player_tracking_step p t v = (p, StepEvents.none)) ∧
    (∀ (p : PlayerData) (frames : List (ℚ × Bool)),
      List.Chain' (fun a b => a + 2 < b) (runPlayer p frames).2.1) ∧
    (∀ (p : PlayerData) (t : ℚ) (v : Bool),
      (3 ≤ p.violations → p.is_out = true) →
      3 ≤ (update_player_tracking_step p t v).1.violations →
      (update_player_tracking_step p t v).1.is_out = true) := by
  refine ⟨?_, step_of_out, fun p frames => (countedTimes_chain frames p).1, ?_⟩
  · norm_num [runPlayer, update_player_tracking_step, tenSecondViolation,
      PlayerData.init, StepEvents.none]
  · intro p t v hinv h3
    cases ho : p.is_out <;> cases hv : v <;> cases hvi : p.is_violating <;>
      simp [update_player_tracking_step, ho, hv, hvi, StepEvents.none] at h3 ⊢ <;>
      first
      | (split_ifs at h3 ⊢ <;> simp_all <;> omega)
      | simp_all

/-- **C1, witness.** -/
theorem c1_amended_witness :
    update_player_tracking_step ⟨3, true, 1000005, true, some 1000000⟩ 1000011 true
      = (⟨3, true, 1000005, true, some 1000000⟩, StepEvents.none) ∧
    List.Chain' (fun a b => a + 2 < b)
      (runPlayer PlayerData.init tenSecondViolation).2.1 ∧
    (3 ≤ (update_player_tracking_step PlayerData.init 1000000 true).1.violations →
      (update_player_tracking_step PlayerData.init 1000000 true).1.is_out = true) :=
  ⟨c1_amended_debounce_and_elimination.2.1 _ 1000011 true rfl,
   c1_amended_debounce_and_elimination.2.2.1 PlayerData.init tenSecondViolation,
   c1_amended_debounce_and_elimination.2.2.2 PlayerData.init 1000000 true
     (by simp [PlayerData.init])⟩

/-- **C3, confirmed.**  In `PlayerTracker.get_stable_id`, whenever the
detection's transient YOLO ID is not bound to any existing identity and some
identity's Kalman-predicted position lies within the 150px association
threshold of the detection's center, the detection is resolved to an identity
whose predicted position is at minimum (squared) Euclidean distance among all
predicted positions, that distance is below the threshold, and no new
identity is created (`next_stable_id` and the identity table's keys are
unchanged) — bbox-overlap matching and creation are reached only when this
step finds no match. -/
theorem c3_predicted_position_matching (st : TrackerState) (center_pos : ℤ × ℤ)
    (bbox : ℤ × ℤ × ℤ × ℤ) (yolo_id : ℕ)
    (hy : st.stable_players.find? (fun sp => sp.2.yolo_id == yolo_id) = none)
    (hex : ∃ kv ∈ predictedOf st, dist2 center_pos kv.2 < MAX_DISTANCE_SQ) :
    ∃ kv ∈ predictedOf st,
      (PlayerTracker.get_stable_id st center_pos bbox yolo_id).1 = kv.1 ∧
      dist2 center_pos kv.2 < MAX_DISTANCE_SQ ∧
      (∀ kv' ∈ predictedOf st,
        dist2 center_pos kv.2 ≤ dist2 center_pos kv'.2) ∧
      (PlayerTracker.get_stable_id st center_pos bbox yolo_id).2.next_stable_id
        = st.next_stable_id ∧
      keysA (PlayerTracker.get_stable_id st center_pos bbox
        yolo_id).2.stable_players = keysA st.stable_players := by
  cases hc : closestScan center_pos (predictedOf st) with
  | none =>
    exfalso
    obtain ⟨kv, hkv, hd⟩ := hex
    exact (closestScan_go_ne_none center_pos (predictedOf st) none hc).2 kv hkv hd
  | some m =>
    obtain ⟨hm1, hm2, hm3, _⟩ := closestScan_go_some center_pos (predictedOf st)
      none m (by rintro a ha; cases ha) hc
    rcases hm2 with hm2 | ⟨kv, hkv, rfl⟩
    · cases hm2
    · obtain ⟨h1, h2, h3⟩ :=
        get_stable_id_closest_match st center_pos bbox yolo_id _ hy hc
      refine ⟨kv, hkv, h1, hm1, ?_, h2, h3⟩
      intro kv' hkv'
      by_cases hd' : dist2 center_pos kv'.2 < MAX_DISTANCE_SQ
      · exact hm3 kv' hkv' hd'
      · exact le_of_lt (lt_of_lt_of_le hm1 (not_lt.1 hd'))

/-- **C3, witness.**  One identity predicted at the origin, a detection with
an unknown YOLO ID centered 5px away: resolution picks identity 1 without
creating a new one. -/
theorem c3_witness :
    ∃ kv ∈ predictedOf oneIdentityState,
      (PlayerTracker.get_stable_id oneIdentityState (3, 4) (0, 0, 10, 10) 9).1
        = kv.1 ∧
      dist2 (3, 4) kv.2 < MAX_DISTANCE_SQ ∧
      (∀ kv' ∈ predictedOf oneIdentityState,
        dist2 (3, 4) kv.2 ≤ dist2 (3, 4) kv'.2) ∧
      (PlayerTracker.get_stable_id oneIdentityState (3, 4) (0, 0, 10, 10)
        9).2.next_stable_id = oneIdentityState.next_stable_id ∧
      keysA (PlayerTracker.get_stable_id oneIdentityState (3, 4) (0, 0, 10, 10)
        9).2.stable_players = keysA oneIdentityState.stable_players :=
  c3_predicted_position_matching oneIdentityState (3, 4) (0, 0, 10, 10) 9 rfl
    ⟨(1, (0, 0)), by
      have hpred : predictedOf oneIdentityState = [(1, (0, 0))] := by
        norm_num [predictedOf, oneIdentityState, KalmanTracker.predict,
          KalmanTracker.init, transitionMatrix, Matrix.mul_apply,
          Fin.sum_univ_four, pyInt, Matrix.vecHead, Matrix.vecTail,
          Matrix.cons_val_zero, Matrix.cons_val_one, Matrix.head_cons,
          Function.comp]
      rw [hpred]
      simp, by norm_num [dist2, MAX_DISTANCE_SQ]⟩

/-- **C4, counterexample.**  The claim says loading fails with a fatal
`ConfigError` when the file is missing or the point list has fewer than 2
entries, and that no silent fallback boundary is ever installed.  The code
disagrees on a concrete input in each cited variant: with a missing file,
`EnhancedSkeletonTracker.load_boundary_points` silently installs the default
fallback boundary `[(100, 400), (500, 400)]`; with a 1-entry point list,
`Config.load_boundary_points` accepts it without any error; and
`BoundaryDetector.load_boundary_config` merely returns `False` for a missing
file instead of raising. -/
theorem c4_counterexample_silent_fallback :
    EnhancedSkeletonTracker.load_boundary_points none = [(100, 400), (500, 400)] ∧
    Config.load_boundary_points (some [(5, 5)]) = some [(5, 5)] ∧
    (BoundaryDetector.load_boundary_config none).1 = false :=
  ⟨rfl, rfl, rfl⟩

/-- **C4, amended.**  What the three loaders actually do: the config-manager
variant aborts the process on a missing/unreadable file (modelled `none`) but
accepts a stored point list of any length — including fewer than 2 entries —
unchanged; the boundary-detector variant returns a `False` flag and leaves
the stored boundary empty; the enhanced-tracker variant silently installs the
default fallback boundary on failure.  No variant raises a `ConfigError` and
none validates the 2-point minimum. -/
theorem c4_amended_loader_behaviour :
    (Config.load_boundary_points none = none) ∧
    (∀ ps, Config.load_boundary_points (some ps) = some ps) ∧
    (EnhancedSkeletonTracker.load_boundary_points none = [(100, 400), (500, 400)]) ∧
    (∀ ps, EnhancedSkeletonTracker.load_boundary_points (some ps) = ps) ∧
    (BoundaryDetector.load_boundary_config none = (false, [])) ∧
    (∀ ps, BoundaryDetector.load_boundary_config (some ps) = (true, ps)) :=
  ⟨rfl, fun _ => rfl, rfl, fun _ => rfl, rfl, fun _ => rfl⟩

/-- **C4, witness.** -/
theorem c4_amended_witness :
    Config.load_boundary_points (some [(1, 2)]) = some [(1, 2)] ∧
    EnhancedSkeletonTracker.load_boundary_points (some [(1, 2)]) = [(1, 2)] ∧
    BoundaryDetector.load_boundary_config (some [(1, 2)]) = (true, [(1, 2)]) :=
  ⟨c4_amended_loader_behaviour.2.1 [(1, 2)],
   c4_amended_loader_behaviour.2.2.2.1 [(1, 2)],
   c4_amended_loader_behaviour.2.2.2.2.2 [(1, 2)]⟩

/-- **C10, confirmed.**  A freshly created subject has
`last_violation_time = 0`, and the debounce compares the current wall-clock
time against it with a strict greater-than test, so the very first violating
frame is counted immediately (wall-clock `time.time()` is far above the
2-second debounce): `update_player_tracking` counts on the first violating
frame of a fresh `PlayerData`, and `should_save_evidence` fires for a player
with no recorded last-violation time.  The 2.0-second debounce therefore only
separates subsequent counts. -/
theorem c10_first_violation_counts_immediately (t : ℚ) (ht : 2 < t) :
    (update_player_tracking_step PlayerData.init t true).2.counted = true ∧
    (update_player_tracking_step PlayerData.init t true).1.violations = 1 ∧
    (update_player_tracking_step PlayerData.init t true).1.last_violation_time = t ∧
    ∀ player_id : ℕ, (should_save_evidence [] player_id t).1 = true := by
  have h0 : t - (0 : ℚ) > 2 := by simpa using ht
  refine ⟨?_, ?_, ?_, ?_⟩ <;>
    simp [update_player_tracking_step, PlayerData.init, should_save_evidence,
      lookupA, COOLDOWN_SECONDS, h0, ht]

/-- **C10, witness.** -/
theorem c10_witness :
    (update_player_tracking_step PlayerData.init 1000000 true).2.counted = true ∧
    (update_player_tracking_step PlayerData.init 1000000 true).1.violations = 1 ∧
    (update_player_tracking_step PlayerData.init 1000000 true).1.last_violation_time
      = 1000000 ∧
    ∀ player_id : ℕ, (should_save_evidence [] player_id 1000000).1 = true :=
  c10_first_violation_counts_immediately 1000000 (by norm_num)

/-- **C2, counterexample.**  The claim states the violation test returns true
iff y exceeds the interpolated boundary y by *more than the 10px threshold*,
and in particular that `y = line_y + threshold` is not a violation.  The cited
`BoundaryDetector.is_point_below_boundary` applies no threshold at all: for
the flat boundary `[(0,0), (10,0)]` and the query point `(5, 10)` — exactly
`line_y + threshold` — it already reports a violation. -/
theorem c2_counterexample_no_threshold :
    is_point_below_boundary [(0, 0), (10, 0)] (5, 10) = true ∧
    ¬ ((10 : ℚ) > interpY (pySortByX [(0, 0), (10, 0)]) 5 + BOUNDARY_THRESHOLD) := by
  constructor
  · norm_num [is_point_below_boundary, pySortByX, List.insertionSort,
      List.orderedInsert, leX, segments, interpScan]
  · norm_num [interpY, pySortByX, List.insertionSort, List.orderedInsert, leX,
      BOUNDARY_THRESHOLD]

/-- **C2, amended.**  For every strictly x-sorted boundary polyline with at
least 2 points and every query point whose x lies strictly inside the
polyline's x-range: `ViolationDetector.check_boundary_crossing` returns true
iff the point's y exceeds the linearly interpolated boundary y at that x by
more than the fixed 10px threshold (so y = line_y + threshold is not a
violation and y = line_y + threshold + 1 is); the cited
`BoundaryDetector.is_point_below_boundary`, however, applies *no* threshold:
it returns true iff y exceeds the interpolated boundary y at all. -/
theorem c2_amended_threshold_iff (points : List (ℚ × ℚ)) (fx fy : ℚ)
    (hch : List.Chain' ltX points) (hlen : 2 ≤ points.length)
    (hlo : points.headI.1 < fx) (hhi : ∀ r ∈ points.getLast?, fx < r.1) :
    (check_boundary_crossing points fx fy = true ↔
      fy > interpY points fx + BOUNDARY_THRESHOLD) ∧
    (is_point_below_boundary points (fx, fy) = true ↔ fy > interpY points fx) := by
  constructor
  · exact segAny_iff_interpY fx fy BOUNDARY_THRESHOLD points hch hlen hlo hhi
  · rw [is_point_below_eq points fx fy hch hlen hlo hhi]
    simp

/-- **C2, witness.**  The boundary `[(0,0), (10,10)]` at x = 5 interpolates to
y = 5; the point (5, 16) is 11 > 10 pixels below it. -/
theorem c2_amended_witness :
    (check_boundary_crossing [(0, 0), (10, 10)] 5 16 = true ↔
      (16 : ℚ) > interpY [(0, 0), (10, 10)] 5 + BOUNDARY_THRESHOLD) ∧
    (is_point_below_boundary [(0, 0), (10, 10)] (5, 16) = true ↔
      (16 : ℚ) > interpY [(0, 0), (10, 10)] 5) :=
  c2_amended_threshold_iff [(0, 0), (10, 10)] 5 16
    (by norm_num [List.chain'_cons, ltX])
    (by norm_num)
    (by norm_num)
    (by intro r hr; simp at hr; subst hr; norm_num)

/-- **C5, confirmed.**  Stable IDs are monotonically increasing, unique and
never reused: along any sequence of resolve and cleanup calls starting from a
fresh manager, the freshly allocated stable IDs form a strictly increasing
sequence with no duplicates (cleanup never rewinds the counter, so removed
IDs are never handed out again); and every single resolution either returns
an ID currently present in the identity table without touching the counter,
or allocates the fresh ID `next_stable_id` — strictly greater than every ID
allocated before it — and advances the counter. -/
theorem c5_stable_ids_monotone_never_reused :
    (∀ ops : List IDMOp,
      List.Chain' (· < ·) (runIDM IDMState.init ops).2 ∧
      (runIDM IDMState.init ops).2.Nodup) ∧
    (∀ (st : IDMState) (c : ℤ × ℤ) (b : ℤ × ℤ × ℤ × ℤ) (y f : ℕ), IDMInv st →
      ((PlayerIDManager.get_stable_id st c b y f).1 ∈ keysA st.stable_players ∧
       (PlayerIDManager.get_stable_id st c b y f).2.next_stable_id
         = st.next_stable_id) ∨
      ((PlayerIDManager.get_stable_id st c b y f).1 = st.next_stable_id ∧
       (PlayerIDManager.get_stable_id st c b y f).1 ∉ keysA st.stable_players ∧
       (PlayerIDManager.get_stable_id st c b y f).2.next_stable_id
         = st.next_stable_id + 1)) := by
  constructor
  · intro ops
    have hinv : IDMInv IDMState.init := by
      intro k hk
      simp [IDMState.init, keysA] at hk
    obtain ⟨_, h2⟩ := runIDM_alloc_spec ops IDMState.init hinv
    refine ⟨h2, ?_⟩
    have hp : List.Pairwise (· < ·) (runIDM IDMState.init ops).2 :=
      List.chain'_iff_pairwise.1 h2
    exact hp.imp fun hab => Nat.ne_of_lt hab
  · intro st c b y f hinv
    rcases idm_get_stable_id_cases st c b y f with ⟨h1, h2, _⟩ | ⟨h1, h2, _⟩
    · exact Or.inl ⟨h1, h2⟩
    · refine Or.inr ⟨h1, ?_, h2⟩
      intro hmem
      have hlt := hinv _ hmem
      rw [h1] at hlt
      exact lt_irrefl _ hlt

/-- **C5, witness.** -/
theorem c5_witness :
    (List.Chain' (· < ·) (runIDM IDMState.init sampleOps).2 ∧
     (runIDM IDMState.init sampleOps).2.Nodup) ∧
    (((PlayerIDManager.get_stable_id oneIdentityIDM (3, 4) (0, 0, 10, 10) 7 1).1
        ∈ keysA oneIdentityIDM.stable_players ∧
      (PlayerIDManager.get_stable_id oneIdentityIDM (3, 4) (0, 0, 10, 10)
        7 1).2.next_stable_id = oneIdentityIDM.next_stable_id) ∨
     ((PlayerIDManager.get_stable_id oneIdentityIDM (3, 4) (0, 0, 10, 10) 7 1).1
        = oneIdentityIDM.next_stable_id ∧
      (PlayerIDManager.get_stable_id oneIdentityIDM (3, 4) (0, 0, 10, 10) 7 1).1
        ∉ keysA oneIdentityIDM.stable_players ∧
      (PlayerIDManager.get_stable_id oneIdentityIDM (3, 4) (0, 0, 10, 10)
        7 1).2.next_stable_id = oneIdentityIDM.next_stable_id + 1)) :=
  ⟨c5_stable_ids_monotone_never_reused.1 sampleOps,
   c5_stable_ids_monotone_never_reused.2 oneIdentityIDM (3, 4) (0, 0, 10, 10) 7 1
     (by
       intro k hk
       simp [oneIdentityIDM, keysA] at hk
       simp [oneIdentityIDM, hk])⟩

/-- **C6, confirmed.**  Cleanup removes exactly the identities unseen for
more than the 60-frame missing threshold: an entry survives iff it was seen
within the last 60 frames, and an identity unseen for 61 frames with an open
violation record is removed from the table with its episode flushed exactly
once (the flushed list contains exactly one entry for it).  An identity
re-detected after a gap of at most 60 frames is still in the table, and a
re-detection whose predicted position or bbox still matches is resolved to
the existing stable ID without creating a new identity. -/
theorem c6_cleanup_eviction :
    (∀ st : TrackerState, (keysA st.stable_players).Nodup →
      ∀ (sid : ℕ) (rec : PlayerRec),
        ((sid, rec) ∈ (PlayerTracker.cleanup_old_players st).1.stable_players ↔
          (sid, rec) ∈ st.stable_players ∧
          (st.frame_count : ℤ) - rec.last_seen ≤ MAX_FRAMES_MISSING)) ∧
    (∀ st : TrackerState, (keysA st.stable_players).Nodup →
      ∀ (sid : ℕ) (rec : PlayerRec) (vr : ViolationRecord),
        (sid, rec) ∈ st.stable_players →
        (st.frame_count : ℤ) - rec.last_seen > MAX_FRAMES_MISSING →
        lookupA st.violation_records sid = some vr →
        ((PlayerTracker.cleanup_old_players st).2.filter
            (fun e => e.1 == sid) = [(sid, vr.start_frame)] ∧
         sid ∉ keysA (PlayerTracker.cleanup_old_players st).1.stable_players)) ∧
    (∀ (st : TrackerState) (center_pos : ℤ × ℤ) (bbox : ℤ × ℤ × ℤ × ℤ)
      (yolo_id : ℕ) (m : ℕ × ℤ),
      st.stable_players.find? (fun sp => sp.2.yolo_id == yolo_id) = none →
      closestScan center_pos (predictedOf st) = some m →
      (PlayerTracker.get_stable_id st center_pos bbox yolo_id).1 = m.1 ∧
      (PlayerTracker.get_stable_id st center_pos bbox yolo_id).2.next_stable_id
        = st.next_stable_id) ∧
    (∀ (st : TrackerState) (center_pos : ℤ × ℤ) (bbox : ℤ × ℤ × ℤ × ℤ)
      (yolo_id : ℕ) (sp : ℕ × PlayerRec),
      st.stable_players.find? (fun sp => sp.2.yolo_id == yolo_id) = none →
      closestScan center_pos (predictedOf st) = none →
      st.stable_players.find? (fun sp => overlaps bbox sp.2.bbox) = some sp →
      (PlayerTracker.get_stable_id st center_pos bbox yolo_id).1 = sp.1 ∧
      (PlayerTracker.get_stable_id st center_pos bbox yolo_id).2.next_stable_id
        = st.next_stable_id) := by
  refine ⟨?_, ?_, ?_, ?_⟩
  · intro st hnd sid rec
    have hcl : PlayerTracker.cleanup_old_players st
        = ((st.stable_players.filter fun sp =>
            decide ((st.frame_count : ℤ) - sp.2.last_seen
              > MAX_FRAMES_MISSING)).map Prod.fst).foldl
          cleanup_remove_one (st, []) := rfl
    rw [hcl, cleanup_fold_players_mem]
    constructor
    · rintro ⟨hmem, hnr⟩
      refine ⟨hmem, ?_⟩
      by_contra hgt
      push_neg at hgt
      exact hnr (List.mem_map.2 ⟨(sid, rec),
        List.mem_filter.2 ⟨hmem, by simpa using hgt⟩, rfl⟩)
    · rintro ⟨hmem, hle⟩
      refine ⟨hmem, ?_⟩
      intro hin
      obtain ⟨e, he, hefst⟩ := List.mem_map.1 hin
      rw [List.mem_filter] at he
      obtain ⟨hemem, hestale⟩ := he
      have hmem2 : (sid, e.2) ∈ st.stable_players := by
        have h1 : e.1 = sid := hefst
        rw [← h1]
        exact hemem
      have heq : e.2 = rec := nodup_keys_unique st.stable_players hnd sid e.2
        rec hmem2 hmem
      rw [heq] at hestale
      simp only [decide_eq_true_eq] at hestale
      omega
  · intro st hnd sid rec vr hmem hstale hlook
    have hcl : PlayerTracker.cleanup_old_players st
        = ((st.stable_players.filter fun sp =>
            decide ((st.frame_count : ℤ) - sp.2.last_seen
              > MAX_FRAMES_MISSING)).map Prod.fst).foldl
          cleanup_remove_one (st, []) := rfl
    have hndr : ((st.stable_players.filter fun sp =>
        decide ((st.frame_count : ℤ) - sp.2.last_seen
          > MAX_FRAMES_MISSING)).map Prod.fst).Nodup :=
      ((List.filter_sublist st.stable_players).map Prod.fst).nodup hnd
    have hsidin : sid ∈ (st.stable_players.filter fun sp =>
        decide ((st.frame_count : ℤ) - sp.2.last_seen
          > MAX_FRAMES_MISSING)).map Prod.fst :=
      List.mem_map.2 ⟨(sid, rec),
        List.mem_filter.2 ⟨hmem, by simpa using hstale⟩, rfl⟩
    constructor
    · rw [hcl, cleanup_fold_flushed _ _ hndr]
      simp only [List.nil_append]
      rw [flushed_filter_key, filter_beq_of_nodup _ hndr sid hsidin,
        List.filterMap_cons]
      simp [hlook]
    · intro hkey
      obtain ⟨e, he, hefst⟩ := List.mem_map.1 hkey
      rw [hcl, cleanup_fold_players_mem] at he
      apply he.2
      rw [hefst]
      exact hsidin
  · intro st center_pos bbox yolo_id m hy hc
    obtain ⟨h1, h2, _⟩ :=
      get_stable_id_closest_match st center_pos bbox yolo_id m hy hc
    exact ⟨h1, h2⟩
  · intro st center_pos bbox yolo_id sp hy hc ho
    obtain ⟨h1, h2, _⟩ :=
      get_stable_id_overlap_match st center_pos bbox yolo_id sp hy hc ho
    exact ⟨h1, h2⟩

/-- **C6, witness.**  In the fixture: identity 1 (unseen for 61 frames, open
episode from frame 5) is flushed exactly once and removed, identity 2 (gap of
1 frame) survives, and a detection near identity 1's predicted position in a
one-identity state is re-bound without creating a new identity. -/
theorem c6_witness :
    ((2, (⟨(50, 50), 60, 8, (40, 40, 60, 60)⟩ : PlayerRec))
        ∈ (PlayerTracker.cleanup_old_players staleIdentityState).1.stable_players ↔
      (2, (⟨(50, 50), 60, 8, (40, 40, 60, 60)⟩ : PlayerRec))
        ∈ staleIdentityState.stable_players ∧
      (staleIdentityState.frame_count : ℤ) - 60 ≤ MAX_FRAMES_MISSING) ∧
    ((PlayerTracker.cleanup_old_players staleIdentityState).2.filter
        (fun e => e.1 == 1) = [(1, 5)] ∧
     1 ∉ keysA (PlayerTracker.cleanup_old_players
        staleIdentityState).1.stable_players) ∧
    ((PlayerTracker.get_stable_id oneIdentityState (3, 4) (0, 0, 10, 10) 9).1
        = (1, 25).1 ∧
     (PlayerTracker.get_stable_id oneIdentityState (3, 4) (0, 0, 10, 10)
        9).2.next_stable_id = oneIdentityState.next_stable_id) := by
  have hnd : (keysA staleIdentityState.stable_players).Nodup := by
    simp [staleIdentityState, keysA]
  refine ⟨c6_cleanup_eviction.1 staleIdentityState hnd 2 _,
    c6_cleanup_eviction.2.1 staleIdentityState hnd 1
      ⟨(0, 0), 0, 7, (0, 0, 10, 10)⟩ ⟨5⟩ ?_ ?_ ?_,
    c6_cleanup_eviction.2.2.1 oneIdentityState (3, 4) (0, 0, 10, 10) 9 (1, 25)
      rfl ?_⟩
  · exact List.mem_cons_self _ _
  · show (61 : ℤ) - 0 > MAX_FRAMES_MISSING
    norm_num [MAX_FRAMES_MISSING]
  · rfl
  · have hpred : predictedOf oneIdentityState = [(1, (0, 0))] := by
      norm_num [predictedOf, oneIdentityState, KalmanTracker.predict,
        KalmanTracker.init, transitionMatrix, Matrix.mul_apply,
        Fin.sum_univ_four, pyInt, Matrix.vecHead, Matrix.vecTail,
        Matrix.cons_val_zero, Matrix.cons_val_one, Matrix.head_cons,
        Function.comp]
    rw [hpred]
    norm_num [closestScan, dist2, MAX_DISTANCE_SQ]

/-- **C7, counterexample.**  The claim states that for x outside the
polyline's x-range, the violation test extrapolates with the nearest
endpoint's y and does not fail open.  The cited
`ViolationDetector.check_boundary_crossing` has no extrapolation branch: for
`[(0,0), (10,0)]` and the point `(20, 1000)` — far past the right endpoint
and 1000px below it, well beyond the threshold — it returns no-violation. -/
theorem c7_counterexample_fails_open :
    check_boundary_crossing [(0, 0), (10, 0)] 20 1000 = false ∧
    ((1000 : ℚ) > 0 + BOUNDARY_THRESHOLD) := by
  constructor
  · norm_num [check_boundary_crossing, segments, segCrosses, BOUNDARY_THRESHOLD]
  · norm_num [BOUNDARY_THRESHOLD]

/-- **C7, amended.**  For every boundary polyline with at least 2 points and
every query point whose x lies outside the polyline's x-range,
`BoundaryDetector.is_point_below_boundary` evaluates the point against the
nearest (leftmost / rightmost after sorting by x) endpoint's y —
extrapolation, not fail-open; the cited
`ViolationDetector.check_boundary_crossing`, however, returns no-violation
for every x outside the x-range (it does fail open). -/
theorem c7_amended_extrapolation (points : List (ℚ × ℚ)) (x y : ℚ)
    (hlen : 2 ≤ points.length) :
    ((∀ p ∈ points, x < p.1) →
      is_point_below_boundary points (x, y)
        = decide (y > (pySortByX points).headI.2)) ∧
    ((∀ p ∈ points, p.1 < x) →
      is_point_below_boundary points (x, y)
        = decide (y > ((pySortByX points).getLastD (0, 0)).2)) ∧
    ((∀ p ∈ points, x < p.1) → check_boundary_crossing points x y = false) ∧
    ((∀ p ∈ points, p.1 < x) → check_boundary_crossing points x y = false) := by
  have hperm := List.perm_insertionSort leX points
  have hsne : pySortByX points ≠ [] := by
    intro h
    have := hperm.length_eq
    rw [show List.insertionSort leX points = pySortByX points from rfl, h] at this
    simp at this
    omega
  obtain ⟨a, l, hal⟩ : ∃ a l, pySortByX points = a :: l := by
    cases hx : pySortByX points with
    | nil => exact absurd hx hsne
    | cons a l => exact ⟨a, l, rfl⟩
  have hmem_head : (pySortByX points).headI ∈ points := by
    refine hperm.subset ?_
    show (pySortByX points).headI ∈ pySortByX points
    rw [hal]
    simp
  obtain ⟨lst, hlst⟩ : ∃ a, (pySortByX points).getLast? = some a := by
    cases hx : (pySortByX points).getLast? with
    | some a => exact ⟨a, rfl⟩
    | none => exact absurd (List.getLast?_eq_none_iff.1 hx) hsne
  have hmem_last : lst ∈ points :=
    hperm.subset (List.mem_of_getLast?_eq_some hlst)
  have hlstD : (pySortByX points).getLastD (0, 0) = lst := by
    rw [List.getLastD_eq_getLast?, hlst]
    rfl
  have hnlt : ¬ points.length < 2 := by omega
  refine ⟨?_, ?_, ?_, ?_⟩
  · intro hall
    simp only [is_point_below_boundary, if_neg hnlt]
    rw [if_pos (hall _ hmem_head)]
  · intro hall
    simp only [is_point_below_boundary, if_neg hnlt]
    rw [if_neg (not_lt.2 (le_of_lt (hall _ hmem_head))), hlstD,
      if_pos (hall _ hmem_last)]
  · exact segAny_false_of_all_gt x y BOUNDARY_THRESHOLD points
  · exact segAny_false_of_all_lt x y BOUNDARY_THRESHOLD points

/-- **C7, witness.**  For the boundary `[(0,0), (10,7)]`: at x = -5 (left of
the range) the detector extrapolates with y = 0, at x = 20 (right of the
range) with y = 7, while `check_boundary_crossing` reports no violation on
both sides. -/
theorem c7_amended_witness :
    (is_point_below_boundary [(0, 0), (10, 7)] (-5, 3)
      = decide ((3 : ℚ) > (pySortByX [(0, 0), (10, 7)]).headI.2)) ∧
    (is_point_below_boundary [(0, 0), (10, 7)] (20, 3)
      = decide ((3 : ℚ) > ((pySortByX [(0, 0), (10, 7)]).getLastD (0, 0)).2)) ∧
    check_boundary_crossing [(0, 0), (10, 7)] (-5) 3 = false ∧
    check_boundary_crossing [(0, 0), (10, 7)] 20 3 = false := by
  have hleft := c7_amended_extrapolation [(0, 0), (10, 7)] (-5) 3 (by norm_num)
  have hright := c7_amended_extrapolation [(0, 0), (10, 7)] 20 3 (by norm_num)
  have hL : ∀ p ∈ [((0 : ℚ), (0 : ℚ)), (10, 7)], (-5 : ℚ) < p.1 := by
    intro p hp
    simp at hp
    rcases hp with rfl | rfl <;> norm_num
  have hR : ∀ p ∈ [((0 : ℚ), (0 : ℚ)), (10, 7)], p.1 < (20 : ℚ) := by
    intro p hp
    simp at hp
    rcases hp with rfl | rfl <;> norm_num
  exact ⟨hleft.1 hL, hright.2.1 hR, hleft.2.2.1 hL, hright.2.2.2 hR⟩

/-- **C8, counterexample.**  The claim states every violation test returns the
same decision on the reversed polyline.  The cited
`BoundaryDetector.is_point_below_boundary` sorts the points with a *stable*
sort keyed on x only, so two points sharing an x keep their input order:
for `[(0,0), (0,100), (10,50)]` and the query `(0, 50)` the original order
interpolates `boundary_y = 0` (violation) while the reversed order
interpolates `boundary_y = 100` (no violation). -/
theorem c8_counterexample_reversal :
    is_point_below_boundary [(0, 0), (0, 100), (10, 50)] (0, 50) = true ∧
    is_point_below_boundary (List.reverse [(0, 0), (0, 100), (10, 50)]) (0, 50)
      = false := by
  constructor <;>
    norm_num [is_point_below_boundary, pySortByX, List.insertionSort,
      List.orderedInsert, leX, segments, interpScan]

/-- **C8, amended.**  `check_boundary_crossing` and `point_crosses_boundary`
are deterministic pure functions and return the same decision on the reversed
point list, for every polyline and query point; `is_point_below_boundary` does
so as well provided no two points share an x-coordinate — with duplicated
x-coordinates its stable sort can order the equal-x points differently for
reversed input and change the decision (see the counterexample). -/
theorem c8_amended_reversal_symmetry :
    (∀ (points : List (ℚ × ℚ)) (fx fy : ℚ),
      check_boundary_crossing points.reverse fx fy
        = check_boundary_crossing points fx fy) ∧
    (∀ (pts : List (ℚ × ℚ)) (x y : ℚ),
      point_crosses_boundary pts.reverse x y = point_crosses_boundary pts x y) ∧
    (∀ (points : List (ℚ × ℚ)) (pt : ℚ × ℚ), (points.map Prod.fst).Nodup →
      is_point_below_boundary points.reverse pt
        = is_point_below_boundary points pt) :=
  ⟨check_boundary_crossing_reverse, point_crosses_boundary_reverse,
   is_point_below_boundary_reverse⟩

/-- **C8, witness.** -/
theorem c8_amended_witness :
    (check_boundary_crossing (List.reverse [(0, 0), (10, 10)]) 5 16
      = check_boundary_crossing [(0, 0), (10, 10)] 5 16) ∧
    (point_crosses_boundary (List.reverse [(0, 0), (10, 10)]) 5 16
      = point_crosses_boundary [(0, 0), (10, 10)] 5 16) ∧
    (is_point_below_boundary (List.reverse [(0, 0), (10, 10)]) (5, 16)
      = is_point_below_boundary [(0, 0), (10, 10)] (5, 16)) :=
  ⟨c8_amended_reversal_symmetry.1 [(0, 0), (10, 10)] 5 16,
   c8_amended_reversal_symmetry.2.1 [(0, 0), (10, 10)] 5 16,
   c8_amended_reversal_symmetry.2.2 [(0, 0), (10, 10)] (5, 16) (by norm_num)⟩

/-- **C9, counterexample.**  The claim states ground-contact extraction
returns the foot/ankle/knee landmarks above the visibility threshold
*ordered by descending confidence*.  `EnhancedSkeletonTracker.
get_ground_contact_points` emits them in fixed priority order instead: for a
pose with a 0.4-visibility left heel and a 0.9-visibility left knee it
returns the heel first, an ascending-confidence order.  The
`foot_detector.SkeletonTracker` variant does sort by confidence but never
returns knees: the same 0.9-visibility knee is absent from its output. -/
theorem c9_counterexample_priority_not_confidence :
    ((EnhancedSkeletonTracker.get_ground_contact_points
        (get_skeleton_landmarks kneeHeelPose) 100 100).map
      fun gp => (gp.name, gp.confidence)) =
        [("left_heel", 2/5), ("left_knee", 9/10)] ∧
    ((2 : ℚ)/5 < 9/10) ∧
    ((SkeletonTracker.get_ground_contact_points kneeHeelPose 100 100).map
      fun gp => gp.index) = [29] := by
  refine ⟨?_, by norm_num, ?_⟩
  · have h1 : get_skeleton_landmarks kneeHeelPose =
        [("left_knee", ⟨1/2, 1/2, 9/10⟩), ("left_heel", ⟨1/4, 3/4, 2/5⟩)] := by
      norm_num [get_skeleton_landmarks, kneeHeelPose, landmarkNames,
        List.filterMap_cons, List.filterMap_nil]
    rw [EnhancedSkeletonTracker.get_ground_contact_points, h1]
    simp [footLandmarkNames, List.filterMap_cons, List.filterMap_nil, pyInt]
  · simp [SkeletonTracker.get_ground_contact_points, kneeHeelPose,
      fdFootIndices, List.insertionSort, List.orderedInsert, geConf, pyInt,
      List.filterMap_cons, List.filterMap_nil]
    norm_num

/-- **C9, amended.**  What the two extractors actually return:
`foot_detector.SkeletonTracker.get_ground_contact_points` returns candidates
sorted by descending confidence, its members are exactly the landmarks at
heel/toe/ankle indices (29-32, 27-28) whose visibility exceeds the 0.3
threshold, and knees (25, 26) are never considered;
`EnhancedSkeletonTracker.get_ground_contact_points` returns the skeleton's
heel/toe/ankle/knee landmarks in the fixed priority order heel, toe/
foot-index, ankle, knee (not by confidence), so its first element — the
single best point — is a lower-priority landmark only when every
higher-priority landmark is absent. -/
theorem c9_amended_ground_contact :
    (∀ (pose : List Landmark) (w h : ℚ),
      List.Sorted geConf (SkeletonTracker.get_ground_contact_points pose w h)) ∧
    (∀ (pose : List Landmark) (w h : ℚ) (gp : FDGroundPoint),
      gp ∈ SkeletonTracker.get_ground_contact_points pose w h →
        gp.index ∈ fdFootIndices ∧
        ∃ lm, pose.get? gp.index = some lm ∧ lm.visibility > 3/10 ∧
          gp.confidence = lm.visibility) ∧
    (∀ (pose : List Landmark) (w h : ℚ), ∀ idx ∈ fdFootIndices, ∀ lm : Landmark,
      pose.get? idx = some lm → lm.visibility > 3/10 →
        ∃ gp ∈ SkeletonTracker.get_ground_contact_points pose w h,
          gp.index = idx ∧ gp.confidence = lm.visibility) ∧
    ((25 : ℕ) ∉ fdFootIndices ∧ (26 : ℕ) ∉ fdFootIndices) ∧
    (∀ (skeleton : List (String × Landmark)) (w h : ℚ),
      (EnhancedSkeletonTracker.get_ground_contact_points skeleton w h).map
          (fun gp => gp.name)
        = footLandmarkNames.filter
            (fun nm => (skeleton.find? (fun kv => kv.1 == nm)).isSome)) := by
  refine ⟨?_, ?_, ?_, ⟨by decide, by decide⟩, ?_⟩
  · intro pose w h
    exact List.sorted_insertionSort geConf _
  · intro pose w h gp hgp
    have hmem : gp ∈ (fdFootIndices.filterMap fun idx =>
        match pose.get? idx with
        | some lm =>
          if lm.visibility > 3/10 then
            some { position := (pyInt (lm.x * w), pyInt (lm.y * h)),
                   confidence := lm.visibility, index := idx }
          else none
        | none => none) := (List.perm_insertionSort geConf _).subset hgp
    rw [List.mem_filterMap] at hmem
    obtain ⟨idx, hidx, hf⟩ := hmem
    cases hx : pose.get? idx with
    | none => rw [hx] at hf; cases hf
    | some lm =>
      rw [hx] at hf
      dsimp only at hf
      by_cases hv : lm.visibility > 3/10
      · rw [if_pos hv] at hf
        cases hf
        exact ⟨hidx, lm, hx, hv, rfl⟩
      · rw [if_neg hv] at hf; cases hf
  · intro pose w h idx hidx lm hx hv
    refine ⟨{ position := (pyInt (lm.x * w), pyInt (lm.y * h)),
              confidence := lm.visibility, index := idx },
      (List.perm_insertionSort geConf _).symm.subset
        (List.mem_filterMap.2 ⟨idx, hidx, ?_⟩), rfl, rfl⟩
    rw [hx]
    dsimp only
    rw [if_pos hv]
  · intro skeleton w h
    have hmain := map_name_filterMap footLandmarkNames
      (fun nm => match skeleton.find? (fun kv => kv.1 == nm) with
        | some kv =>
          some ({ x := pyInt (kv.2.x * w), y := pyInt (kv.2.y * h), name := nm,
                  confidence := kv.2.visibility } : GroundPoint)
        | none => none)
      (fun gp => gp.name)
      (by
        intro nm a hfa
        dsimp only at hfa
        cases hx : skeleton.find? (fun kv => kv.1 == nm) with
        | none => rw [hx] at hfa; cases hfa
        | some kv =>
          rw [hx] at hfa
          dsimp only at hfa
          cases hfa
          rfl)
    rw [show (EnhancedSkeletonTracker.get_ground_contact_points skeleton w h).map
        (fun gp => gp.name) = _ from hmain]
    refine List.filter_congr ?_
    intro nm _
    cases hx : skeleton.find? (fun kv => kv.1 == nm) <;> simp [hx]

/-- **C9, witness.**  Applied to the knee+heel pose: the foot_detector output
is confidence-sorted, contains the heel at index 29, and the enhanced-tracker
output is the priority-filtered name list. -/
theorem c9_amended_witness :
    List.Sorted geConf
      (SkeletonTracker.get_ground_contact_points kneeHeelPose 100 100) ∧
    (∃ gp ∈ SkeletonTracker.get_ground_contact_points kneeHeelPose 100 100,
      gp.index = 29 ∧ gp.confidence = (2 : ℚ)/5) ∧
    ((EnhancedSkeletonTracker.get_ground_contact_points
        (get_skeleton_landmarks kneeHeelPose) 100 100).map (fun gp => gp.name)
      = footLandmarkNames.filter
          (fun nm => ((get_skeleton_landmarks kneeHeelPose).find?
            (fun kv => kv.1 == nm)).isSome)) :=
  ⟨c9_amended_ground_contact.1 kneeHeelPose 100 100,
   c9_amended_ground_contact.2.2.1 kneeHeelPose 100 100 29 (by decide)
     ⟨1/4, 3/4, 2/5⟩ rfl (by norm_num),
   c9_amended_ground_contact.2.2.2.2 (get_skeleton_landmarks kneeHeelPose) 100 100⟩

end Kabadi
